import Mathlib

/-!
Verification of the anime-storyboard generation pipeline
(`src/server/routes.ts`, `src/server/image-provider.ts`).

The TypeScript string heuristics are embedded over `List Char`, mirroring the
JavaScript semantics of the regex splits and scans actually used by the code
(`split(/\n\s*\n/)`, `split(/\n+/)`, `split(/(?<=[.!?])\s+/)`,
`match(/\b[A-Z][a-z]{2,}\b/g)`, `match(/\b[A-Z][A-Z]{2,}\b/g)`), of `trim`,
`toLowerCase`, `includes`, `slice`, and of JS truthiness on optional strings.
Recursive scanners take an explicit fuel argument (always called with
`length + 1`, which provably suffices since every step consumes at least one
character) so that all definitions compute by kernel reduction.
-/

namespace AnimeStoryboard

/-- Whitespace class used by JS `trim` / `\s` (restricted to the ASCII
whitespace characters, which is what the scripts in scope contain). -/
def isWs (c : Char) : Bool :=
  c = ' ' || c = '\t' || c = '\n' || c = '\r' || c = '\x0b' || c = '\x0c'

/-- JS `\w` word-character class `[A-Za-z0-9_]`. -/
def isWordChar (c : Char) : Bool :=
  c.isUpper || c.isLower || c.isDigit || c = '_'

/-- Sentence-ending punctuation class `[.!?]` of the segmenter. -/
def isPunct (c : Char) : Bool :=
  c = '.' || c = '!' || c = '?'

/-- JS `String.prototype.trim` on a character list. -/
def trimChars (l : List Char) : List Char :=
  ((l.dropWhile isWs).reverse.dropWhile isWs).reverse

/-- JS `trim` on `String`. -/
def jsTrim (s : String) : String :=
  ⟨trimChars s.data⟩

/-- JS `Array.prototype.join(sep)` on character lists. -/
def joinSep (sep : List Char) : List (List Char) → List Char
  | [] => []
  | [x] => x
  | x :: y :: xs => x ++ sep ++ joinSep sep (y :: xs)

/-- JS `array.slice(a, b)` on lists (non-negative indices). -/
def jsSliceList (l : List α) (a b : Nat) : List α :=
  (l.take b).drop a

/-- JS `String.prototype.toLowerCase` (ASCII). -/
def jsToLower (l : List Char) : List Char :=
  l.map Char.toLower

/-- JS `String.prototype.includes`: substring containment on char lists. -/
def containsSub (hay needle : List Char) : Bool :=
  (List.range (hay.length + 1)).any (fun i => needle.isPrefixOf (hay.drop i))

/-- JS truthiness of an optional string (`undefined` and `""` are falsy). -/
def jsTruthy : Option String → Bool
  | none => false
  | some s => !s.isEmpty

/-- JS template interpolation of a possibly-undefined string
(`` `${x}` `` renders `undefined` as the text "undefined"). -/
def jsTemplateOpt : Option String → String
  | none => "undefined"
  | some s => s

/-- Deduplication keeping the first occurrence of each element, as JS
`Array.from(new Set(xs))` does. The `seen` accumulator holds elements
already emitted. -/
def dedupFirstAux [DecidableEq α] (seen : List α) : List α → List α
  | [] => []
  | a :: rest =>
    if a ∈ seen then dedupFirstAux seen rest
    else a :: dedupFirstAux (a :: seen) rest

/-- JS `Array.from(new Set(xs))`. -/
def dedupFirst [DecidableEq α] (l : List α) : List α :=
  dedupFirstAux [] l

/-- Splitter for JS `split(/X+/)` where `X` is a single-character class:
splits on maximal runs of characters satisfying `p`, keeping empty pieces at
the boundaries exactly as JS `split` does. Fuel-driven; each step consumes at
least one input character. -/
def splitRunsAux (p : Char → Bool) : Nat → List Char → List Char → List (List Char)
  | 0, acc, _ => [acc.reverse]
  | _ + 1, acc, [] => [acc.reverse]
  | fuel + 1, acc, c :: rest =>
    if p c then acc.reverse :: splitRunsAux p fuel [] (rest.dropWhile p)
    else splitRunsAux p fuel (c :: acc) rest

/-- JS `s.split(/\n+/)`. -/
def splitNewlineRuns (s : String) : List (List Char) :=
  splitRunsAux (· = '\n') (s.data.length + 1) [] s.data

/-- Index of the last occurrence of `c` in `l`, if any. -/
def lastIdxOf (c : Char) (l : List Char) : Option Nat :=
  match l.reverse.findIdx? (· = c) with
  | some j => some (l.length - 1 - j)
  | none => none

/-- Splitter for JS `split(/\n\s*\n/)`: a separator starts at a newline whose
following maximal whitespace run contains another newline; the greedy `\s*`
consumes through the last newline of that run. -/
def splitBlankAux : Nat → List Char → List Char → List (List Char)
  | 0, acc, _ => [acc.reverse]
  | _ + 1, acc, [] => [acc.reverse]
  | fuel + 1, acc, c :: rest =>
    if c = '\n' then
      match lastIdxOf '\n' (rest.takeWhile isWs) with
      | some m => acc.reverse :: splitBlankAux fuel [] (rest.drop (m + 1))
      | none => splitBlankAux fuel (c :: acc) rest
    else splitBlankAux fuel (c :: acc) rest

/-- JS `script.split(/\n\s*\n/g)`. -/
def splitBlankLines (s : String) : List (List Char) :=
  splitBlankAux (s.data.length + 1) [] s.data

/-- Splitter for JS `split(/(?<=[.!?])\s+/)`: splits on maximal whitespace
runs that immediately follow `.`, `!` or `?`; `prev` tracks the previous
character for the lookbehind. -/
def splitSentAux : Nat → Option Char → List Char → List Char → List (List Char)
  | 0, _, acc, _ => [acc.reverse]
  | _ + 1, _, acc, [] => [acc.reverse]
  | fuel + 1, prev, acc, c :: rest =>
    if isWs c && (match prev with | some p => isPunct p | none => false) then
      acc.reverse :: splitSentAux fuel (some c) [] (rest.dropWhile isWs)
    else splitSentAux fuel (some c) (c :: acc) rest

/-- JS `script.split(/(?<=[.!?])\s+/)`. -/
def splitSentences (s : String) : List (List Char) :=
  splitSentAux (s.data.length + 1) none [] s.data

/-- Scanner for the two global token regexes `\b[A-Z]C{2,}\b` of the source
(`C` = `[a-z]` for title-case names, `C` = `[A-Z]` for all-caps names): an
uppercase letter at a word boundary, at least two characters of `restClass`,
and a word boundary after. Mirrors the left-to-right, non-overlapping
behaviour of `String.prototype.match` with the `g` flag. -/
def scanTokens (restClass : Char → Bool) : Nat → Option Char → List Char → List (List Char)
  | 0, _, _ => []
  | _ + 1, _, [] => []
  | fuel + 1, prev, c :: rest =>
    if (match prev with | none => true | some p => !isWordChar p) && c.isUpper then
      let run := rest.takeWhile restClass
      let rest2 := rest.drop run.length
      if 2 ≤ run.length &&
          (match rest2 with | [] => true | d :: _ => !isWordChar d) then
        (c :: run) :: scanTokens restClass fuel (some (run.getLastD c)) rest2
      else scanTokens restClass fuel (some c) rest
    else scanTokens restClass fuel (some c) rest

/-- JS `script.match(/\b[A-Z][a-z]{2,}\b/g) ?? []`. -/
def titleCaseTokens (s : String) : List (List Char) :=
  scanTokens (fun c => c.isLower) (s.data.length + 1) none s.data

/-- JS `script.match(/\b[A-Z][A-Z]{2,}\b/g) ?? []`. -/
def allCapsTokens (s : String) : List (List Char) :=
  scanTokens (fun c => c.isUpper) (s.data.length + 1) none s.data

/-! ## Data model of the pipeline (`src/server/routes.ts`) -/

/-- Scene descriptor produced by the segmenter (`ParsedScene` in the source). -/
structure ParsedScene where
  index : Nat
  title : String
  summary : String
  characterConsistency : String
  composition : String
  nature : String
deriving DecidableEq

/-- Per-request context threaded through storyboard segmentation and prompt
assembly (`StoryboardContext` in the source). -/
structure StoryboardContext where
  projectName : String
  characterNotes : Option String := none
  environmentNotes : Option String := none
  natureNotes : Option String := none
  referenceContext : Option String := none
deriving DecidableEq

/-- Asset category tags of the project-pack mode. -/
inductive ProjectAssetCategory where
  | character
  | environment
  | nature
deriving DecidableEq

/-! ## Entity/keyword extraction (`routes.ts` lines 42-56 and 128-187) -/

/-- `extractCharacterBible`: all-caps names (deduplicated, capped at 6) folded
into a continuity directive, with a generic fallback when none are found. -/
def extractCharacterBible (script : String) : String :=
  let names :=
    (dedupFirst (((allCapsTokens script).map (fun t => String.mk (trimChars t))).filter
      (fun name => 2 < name.length))).take 6
  if names.isEmpty then
    "Maintain visual continuity for recurring protagonists, wardrobe, and emotional expression across all scenes."
  else
    "Maintain continuity for these characters: " ++ String.intercalate ", " names ++
      ". Keep facial features, wardrobe palette, and silhouette consistent scene-to-scene."

/-- `pickTopLines`: the first `limit` trimmed lines longer than 20 characters. -/
def pickTopLines (script : String) (limit : Nat) : List String :=
  ((((splitNewlineRuns script).map (fun l => String.mk (trimChars l))).filter
    (fun line => 20 < line.length)).take limit)

/-- `extractCharacterCandidates`: deduplicated title-case tokens, first
`count` of them. -/
def extractCharacterCandidates (script : String) (count : Nat) : List String :=
  (dedupFirst ((titleCaseTokens script).map (fun t => String.mk (trimChars t)))).take count

/-- Keyword set of `extractEnvironmentCandidates`. -/
def environmentKeywords : List String :=
  ["forest", "city", "village", "temple", "school", "room",
   "street", "castle", "river", "mountain", "beach", "market"]

/-- Keyword set of `extractNatureCandidates`. -/
def natureKeywords : List String :=
  ["rain", "wind", "storm", "sunset", "dawn", "night",
   "tree", "leaf", "ocean", "mist", "snow", "cloud"]

/-- `keywords.some((keyword) => line.toLowerCase().includes(keyword))`. -/
def lineMatchesKeyword (keywords : List String) (line : String) : Bool :=
  keywords.any (fun keyword => containsSub (jsToLower line.data) keyword.data)

/-- Shared body of `extractEnvironmentCandidates` / `extractNatureCandidates`:
keyword-matching lines first, then the remaining lines, truncated to `count`. -/
def extractKeywordCandidates (keywords : List String) (script : String) (count : Nat) :
    List String :=
  let lines := pickTopLines script 40
  let matched := lines.filter (lineMatchesKeyword keywords)
  let fallback := lines.filter (fun line => !(matched.contains line))
  (matched ++ fallback).take count

/-- `extractEnvironmentCandidates`. -/
def extractEnvironmentCandidates (script : String) (count : Nat) : List String :=
  extractKeywordCandidates environmentKeywords script count

/-- `extractNatureCandidates`. -/
def extractNatureCandidates (script : String) (count : Nat) : List String :=
  extractKeywordCandidates natureKeywords script count

/-! ## Segmenter (`normalizeScriptScenes`, `routes.ts` lines 58-107) -/

/-- Blank-line-separated paragraphs of the script: `script.split(/\n\s*\n/g)`
trimmed and with empty pieces dropped. -/
def scriptBlocks (script : String) : List (List Char) :=
  ((splitBlankLines script).map trimChars).filter (fun b => !b.isEmpty)

/-- The raw unit sequence the segmenter partitions: the paragraphs when there
are at least two, otherwise sentence fragments longer than 20 characters. -/
def rawScenes (script : String) : List (List Char) :=
  let blocks := scriptBlocks script
  if 2 ≤ blocks.length then blocks
  else ((splitSentences script).map trimChars).filter (fun part => 20 < part.length)

/-- The `i`-th proportional group of the segmenter loop:
`rawScenes.slice(start, Math.max(start + 1, end))` with
`start = floor(i*n/e)` and `end = floor((i+1)*n/e)`. -/
def sceneGroup (raw : List (List Char)) (e i : Nat) : List (List Char) :=
  jsSliceList raw (i * raw.length / e)
    (max (i * raw.length / e + 1) ((i + 1) * raw.length / e))

/-- All `effective` proportional groups of the segmenter loop. -/
def sceneGroups (raw : List (List Char)) (e : Nat) : List (List (List Char)) :=
  (List.range e).map (sceneGroup raw e)

/-- The text of one group: `slice.join(" ").trim()`. -/
def groupText (g : List (List Char)) : List Char :=
  trimChars (joinSep [' '] g)

/-- The chunk list the loop accumulates: one text per group, empty texts
dropped (`if (text) chunks.push(text)`). -/
def sceneChunks (raw : List (List Char)) (targetCount : Nat) : List (List Char) :=
  ((sceneGroups raw (max 2 targetCount)).map groupText).filter (fun t => !t.isEmpty)

/-- The per-run character-consistency directive: the trimmed caller notes when
truthy, otherwise the character bible extracted from the whole script. -/
def runCharacterConsistency (context : StoryboardContext) (script : String) : String :=
  match context.characterNotes with
  | some notes =>
    if (jsTrim notes).length ≠ 0 then jsTrim notes else extractCharacterBible script
  | none => extractCharacterBible script

/-- Fixed composition directives alternated by scene parity. -/
def compositionDefault (idx : Nat) : String :=
  if idx % 2 = 0 then
    "Use cinematic wide framing with a clear foreground-middle-background depth stack."
  else
    "Use medium shot with an anchored subject and leading lines guiding toward emotional focus."

/-- Fixed nature directives chosen by a "night" keyword probe. -/
def natureDefault (sceneText : List Char) : String :=
  if containsSub (jsToLower sceneText) "night".data then
    "Night ambience with moonlight gradients, reflective highlights, and atmospheric haze."
  else
    "Natural environmental storytelling with weather, vegetation, and terrain textures matching the scene tone."

/-- Builds one `ParsedScene` from a chunk, mirroring the map in
`normalizeScriptScenes`. -/
def buildParsedScene (context : StoryboardContext) (characterConsistency : String)
    (idx : Nat) (sceneText : List Char) : ParsedScene :=
  let heading := trimChars (sceneText.takeWhile (fun c => !isPunct c))
  let heading := if heading.isEmpty then ("Scene " ++ toString (idx + 1)).data else heading
  { index := idx + 1
    title := String.mk (heading.take 80)
    summary := String.mk sceneText
    characterConsistency := characterConsistency
    composition :=
      match context.environmentNotes with
      | some notes => if (jsTrim notes).length ≠ 0 then jsTrim notes else compositionDefault idx
      | none => compositionDefault idx
    nature :=
      match context.natureNotes with
      | some notes => if (jsTrim notes).length ≠ 0 then jsTrim notes else natureDefault sceneText
      | none => natureDefault sceneText }

/-- `normalizeScriptScenes`. -/
def normalizeScriptScenes (script : String) (targetCount : Nat)
    (context : StoryboardContext) : List ParsedScene :=
  let chunks := sceneChunks (rawScenes script) targetCount
  let characterConsistency := runCharacterConsistency context script
  (chunks.take targetCount).enum.map
    (fun p => buildParsedScene context characterConsistency p.1 p.2)

/-! ## Prompt assembler (`buildStoryboardPrompt`, `routes.ts` lines 109-125,
and `buildProjectAssetPrompt`, lines 189-211) -/

/-- JS `array.join("\n")`. -/
def jsJoinNl : List String → String
  | [] => ""
  | [x] => x
  | x :: y :: xs => x ++ "\n" ++ jsJoinNl (y :: xs)

/-- The fixed trailing continuity instruction of storyboard prompts. -/
def continuityLine : String :=
  "Keep continuity with prior frames: same character design language, costume colors, and location identity."

/-- The storyboard style line: `Visual style: ${stylePreset}.` when the preset
is truthy, a fixed default phrase otherwise. -/
def storyboardStyleLine (stylePreset : Option String) : String :=
  match stylePreset with
  | some s => if s.isEmpty then "Visual style: cinematic anime storyboard concept art." else "Visual style: " ++ s ++ "."
  | none => "Visual style: cinematic anime storyboard concept art."

/-- `buildStoryboardPrompt`. -/
def buildStoryboardPrompt (scene : ParsedScene) (context : StoryboardContext)
    (stylePreset : Option String) : String :=
  jsJoinNl
    [ "Project: " ++ context.projectName,
      "Storyboard scene " ++ toString scene.index ++ ": " ++ scene.title,
      "Scene summary: " ++ scene.summary,
      "Character consistency: " ++ scene.characterConsistency,
      "Composition guidance: " ++ scene.composition,
      "Nature and environment guidance: " ++ scene.nature,
      context.referenceContext.getD "",
      storyboardStyleLine stylePreset,
      continuityLine ]

/-- `buildProjectAssetPrompt`. -/
def buildProjectAssetPrompt (category : ProjectAssetCategory) (descriptor : String)
    (projectName : String) (stylePreset : Option String) : String :=
  let styleLine :=
    match stylePreset with
    | some s => if s.isEmpty then "Style: anime concept art storyboard pre-production." else "Style: " ++ s ++ "."
    | none => "Style: anime concept art storyboard pre-production."
  let subjectLine :=
    match category with
    | .character => "Character design sheet: " ++ descriptor ++ ". Full body, expression clarity, repeatable costume shapes."
    | .environment => "Environment concept frame: " ++ descriptor ++ ". Strong layout readability and location identity."
    | .nature => "Nature mood plate: " ++ descriptor ++ ". Focus on weather, foliage, terrain and atmosphere."
  jsJoinNl
    [ "Project: " ++ projectName,
      subjectLine,
      styleLine,
      "Designed for reuse as reference in consistent storyboard scene generation." ]

/-- The prompt line list as §4.3 of the specification words it: project/context
header, subject line, summary, character-consistency guidance, composition
guidance, nature/environment guidance, reference-asset summary, an explicit
style line falling back to a fixed default phrase, and the fixed trailing
continuity instruction, in that order. Written from the spec to be compared
with `buildStoryboardPrompt`, which is written from the source. -/
def storyboardPromptSpecLines (scene : ParsedScene) (context : StoryboardContext)
    (stylePreset : Option String) : List String :=
  [ "Project: " ++ context.projectName,
    "Storyboard scene " ++ toString scene.index ++ ": " ++ scene.title,
    "Scene summary: " ++ scene.summary,
    "Character consistency: " ++ scene.characterConsistency,
    "Composition guidance: " ++ scene.composition,
    "Nature and environment guidance: " ++ scene.nature,
    context.referenceContext.getD "",
    storyboardStyleLine stylePreset,
    continuityLine ]

/-! ## Generation client (`src/server/image-provider.ts`) -/

/-- One entry of the OpenAI images response `data` array. -/
structure OpenAIImage where
  b64Json : Option String
deriving DecidableEq

/-- `generateWithOpenAI` (lines 27-37): extract the first base64 payload,
throw "OpenAI returned no image data" when it is absent or empty. -/
def generateWithOpenAI (data : List OpenAIImage) : Except String String :=
  match data.head? with
  | none => .error "OpenAI returned no image data"
  | some img =>
    match img.b64Json with
    | none => .error "OpenAI returned no image data"
    | some b64 => if b64.isEmpty then .error "OpenAI returned no image data" else .ok b64

/-- The Bedrock credential environment read by `buildBedrockAuthHeaders`. -/
structure BedrockEnv where
  apiKey : Option String := none
  accessKeyId : Option String := none
  secretAccessKey : Option String := none
  sessionToken : Option String := none
deriving DecidableEq

/-- The record returned by `buildBedrockAuthHeaders`. -/
structure BedrockAuth where
  host : String
  amzDate : String
  payloadHash : String
  sessionToken : Option String
  authorization : Option String
  apiKey : Option String
deriving DecidableEq

/-- Insertion of a string into a lexicographically sorted list, for JS
`Array.prototype.sort()`. -/
def insertSorted (s : String) : List String → List String
  | [] => [s]
  | x :: xs => if s ≤ x then s :: x :: xs else x :: insertSorted s xs

/-- JS `array.sort()` on strings (default lexicographic comparator). -/
def sortStrings (l : List String) : List String :=
  l.foldr insertSorted []

/-- `buildBedrockAuthHeaders` (lines 39-119). SHA-256 and HMAC-SHA-256 are
abstracted as the function parameters `hash` and `hmac` (hex digests as
strings); the wall-clock `amzDate` is a parameter as well. The truthiness
tests on the environment variables mirror JS (`""` is falsy). -/
def buildBedrockAuthHeaders (hash : String → String) (hmac : String → String → String)
    (env : BedrockEnv) (body canonicalPath region service amzDate : String) :
    Except String BedrockAuth :=
  let dateStamp := amzDate.take 8
  let payloadHash := hash body
  let host := "bedrock-runtime." ++ region ++ ".amazonaws.com"
  if jsTruthy env.apiKey then
    .ok { host := host, amzDate := amzDate, payloadHash := payloadHash,
          sessionToken := none, authorization := none, apiKey := env.apiKey }
  else if !jsTruthy env.accessKeyId || !jsTruthy env.secretAccessKey then
    .error "Missing Bedrock credentials. Set BEDROCK_API_KEY or AWS_ACCESS_KEY_ID/AWS_SECRET_ACCESS_KEY."
  else
    let accessKeyId := jsTemplateOpt env.accessKeyId
    let secretAccessKey := jsTemplateOpt env.secretAccessKey
    let canonicalHeaders :=
      jsJoinNl (sortStrings
        ([ "content-type:application/json",
           "host:" ++ host,
           "x-amz-content-sha256:" ++ payloadHash,
           "x-amz-date:" ++ amzDate ] ++
         (match env.sessionToken with
          | some t => ["x-amz-security-token:" ++ t]
          | none => [])))
    let signedHeaders :=
      String.intercalate ";" (sortStrings
        ([ "content-type", "host", "x-amz-content-sha256", "x-amz-date" ] ++
         (match env.sessionToken with
          | some _ => ["x-amz-security-token"]
          | none => [])))
    let canonicalRequest :=
      jsJoinNl [ "POST", canonicalPath, "", canonicalHeaders ++ "\n", signedHeaders, payloadHash ]
    let credentialScope := dateStamp ++ "/" ++ region ++ "/" ++ service ++ "/aws4_request"
    let stringToSign :=
      jsJoinNl [ "AWS4-HMAC-SHA256", amzDate, credentialScope, hash canonicalRequest ]
    let kDate := hmac ("AWS4" ++ secretAccessKey) dateStamp
    let kRegion := hmac kDate region
    let kService := hmac kRegion service
    let kSigning := hmac kService "aws4_request"
    let signature := hmac kSigning stringToSign
    .ok { host := host, amzDate := amzDate, payloadHash := payloadHash,
          sessionToken := env.sessionToken,
          authorization := some ("AWS4-HMAC-SHA256 Credential=" ++ accessKeyId ++ "/" ++
            credentialScope ++ ", SignedHeaders=" ++ signedHeaders ++ ", Signature=" ++ signature),
          apiKey := none }

/-- The header object of the Bedrock `fetch` call (`generateWithBedrock`,
lines 153-165), in source order: the `Bearer` template header is populated
unconditionally, the signature header and `x-api-key` conditionally. -/
def bedrockRequestHeaders (auth : BedrockAuth) : List (String × String) :=
  [ ("content-type", "application/json"),
    ("Authorization", "Bearer " ++ jsTemplateOpt auth.apiKey),
    ("x-amz-date", auth.amzDate),
    ("x-amz-content-sha256", auth.payloadHash) ] ++
  (match auth.sessionToken with
   | some t => [("x-amz-security-token", t)]
   | none => []) ++
  (match auth.authorization with
   | some a => [("authorization", a)]
   | none => []) ++
  (match auth.apiKey with
   | some k => [("x-api-key", k)]
   | none => [])

/-! ## Job ledger model (`generation_jobs` row, `storage.updateJob` partial
updates). Schema defaults: status `queued`, progress `0`. -/

/-- The job fields the pipeline claims are about. -/
structure JobState where
  status : String
  progress : Nat
  error : Option String
deriving DecidableEq

/-- A partial `storage.updateJob` payload: only the provided fields are set. -/
structure JobUpdate where
  status : Option String := none
  progress : Option Nat := none
  error : Option String := none
deriving DecidableEq

/-- A freshly created job row (`createJob` leaves status/progress at their
schema defaults). -/
def initialJob : JobState :=
  { status := "queued", progress := 0, error := none }

/-- Drizzle `update().set(updates)`: provided fields overwrite, absent fields
are kept. -/
def applyUpdate (s : JobState) (u : JobUpdate) : JobState :=
  { status := u.status.getD s.status
    progress := u.progress.getD s.progress
    error := match u.error with | some e => some e | none => s.error }

/-- The job states observed over a run: the fresh row followed by the result
of each successive update. -/
def jobStates (trace : List JobUpdate) : List JobState :=
  trace.scanl applyUpdate initialJob

/-- The persistence operations a handler issues, in order. -/
inductive WriteOp where
  | createJob (prompt : String)
  | updateJob (u : JobUpdate)
  | createAsset (prompt : String)
  | createRendition (width height : Nat)
deriving DecidableEq

/-- The job-update subsequence of a handler's writes. -/
def jobUpdatesOf (writes : List WriteOp) : List JobUpdate :=
  writes.filterMap (fun w => match w with | .updateJob u => some u | _ => none)

/-- `Math.round(((i + 1) / n) * 100)` for the storyboard progress updates,
as exact rational rounding (`floor(100k/n + 1/2)`). -/
def jsRound100 (k n : Nat) : Nat :=
  (200 * k + n) / (2 * n)

/-- `sizeToDims` (`routes.ts` lines 16-20). -/
def sizeToDims (size : String) : Nat × Nat :=
  if size = "256x256" then (256, 256)
  else if size = "512x512" then (512, 512)
  else (1024, 1024)

/-! ## Request validation (`src/shared/routes.ts` zod schemas) and the three
generation handlers (`registerRoutes`). A handler is a pure function from the
parsed request body and the provider's responses to the HTTP response and the
ordered list of persistence writes. -/

/-- The structured validation error produced by `zodToValidation`. -/
structure ValidationMessage where
  message : String
  field : Option String
deriving DecidableEq

/-- An HTTP response, reduced to status code and message. -/
structure HttpResponse where
  status : Nat
  message : String
deriving DecidableEq

/-- The size enum of all three schemas. -/
def sizeEnum : List String :=
  ["1024x1024", "512x512", "256x256"]

/-- An optional enum field is valid when absent or a member. -/
def validOptEnum (allowed : List String) : Option String → Bool
  | none => true
  | some s => allowed.contains s

/-- An optional string field with zod `min(lo).max(hi)` bounds. -/
def validOptLen (lo hi : Nat) : Option String → Bool
  | none => true
  | some s => lo ≤ s.length && s.length ≤ hi

/-- Body of `POST /api/generate/image` (`api.generate.image.input`). -/
structure GenerateImageBody where
  prompt : String
  title : Option String := none
  projectName : Option String := none
  assetCategory : Option String := none
  negativePrompt : Option String := none
  stylePreset : Option String := none
  size : Option String := none
deriving DecidableEq

/-- Zod validation of the single-image body, reporting the first failing
field. -/
def validateGenerateImage (b : GenerateImageBody) :
    Except ValidationMessage GenerateImageBody :=
  if b.prompt.length < 1 then
    .error { message := "String must contain at least 1 character(s)", field := some "prompt" }
  else if !validOptLen 1 120 b.title then
    .error { message := "Invalid title", field := some "title" }
  else if !validOptLen 1 120 b.projectName then
    .error { message := "Invalid projectName", field := some "projectName" }
  else if !validOptEnum ["character", "environment", "nature", "general"] b.assetCategory then
    .error { message := "Invalid enum value", field := some "assetCategory" }
  else if !validOptEnum sizeEnum b.size then
    .error { message := "Invalid enum value", field := some "size" }
  else
    .ok b

/-- Body of `POST /api/generate/project-pack`. -/
structure ProjectPackBody where
  projectName : String
  script : String
  characterCount : Option Nat := none
  environmentCount : Option Nat := none
  natureCount : Option Nat := none
  stylePreset : Option String := none
  size : Option String := none
deriving DecidableEq

/-- Project-pack body after validation, with count defaults applied. -/
structure ProjectPackInput where
  projectName : String
  script : String
  characterCount : Nat
  environmentCount : Nat
  natureCount : Nat
  stylePreset : Option String
  size : Option String
deriving DecidableEq

/-- An optional zod `int().min(1).max(6).default(2)` count field. -/
def validOptCount (lo hi : Nat) : Option Nat → Bool
  | none => true
  | some n => lo ≤ n && n ≤ hi

/-- Zod validation of the project-pack body. -/
def validateProjectPack (b : ProjectPackBody) :
    Except ValidationMessage ProjectPackInput :=
  if !(1 ≤ b.projectName.length && b.projectName.length ≤ 120) then
    .error { message := "Invalid projectName", field := some "projectName" }
  else if b.script.length < 20 then
    .error { message := "String must contain at least 20 character(s)", field := some "script" }
  else if !validOptCount 1 6 b.characterCount then
    .error { message := "Invalid characterCount", field := some "characterCount" }
  else if !validOptCount 1 6 b.environmentCount then
    .error { message := "Invalid environmentCount", field := some "environmentCount" }
  else if !validOptCount 1 6 b.natureCount then
    .error { message := "Invalid natureCount", field := some "natureCount" }
  else if !validOptEnum sizeEnum b.size then
    .error { message := "Invalid enum value", field := some "size" }
  else
    .ok { projectName := b.projectName, script := b.script,
          characterCount := b.characterCount.getD 2,
          environmentCount := b.environmentCount.getD 2,
          natureCount := b.natureCount.getD 2,
          stylePreset := b.stylePreset, size := b.size }

/-- Body of `POST /api/generate/storyboard`. -/
structure StoryboardBody where
  script : String
  sceneCount : Option Nat := none
  projectName : String
  characterNotes : Option String := none
  environmentNotes : Option String := none
  natureNotes : Option String := none
  referenceAssetIds : Option (List Nat) := none
  stylePreset : Option String := none
  size : Option String := none
deriving DecidableEq

/-- Storyboard body after validation, with the scene-count default applied. -/
structure StoryboardInput where
  script : String
  sceneCount : Nat
  projectName : String
  characterNotes : Option String
  environmentNotes : Option String
  natureNotes : Option String
  referenceAssetIds : Option (List Nat)
  stylePreset : Option String
  size : Option String
deriving DecidableEq

/-- Zod validation of the storyboard body (`sceneCount` int 2-8 defaulting to
4, `referenceAssetIds` at most 24 positive ints). -/
def validateStoryboard (b : StoryboardBody) :
    Except ValidationMessage StoryboardInput :=
  if b.script.length < 20 then
    .error { message := "String must contain at least 20 character(s)", field := some "script" }
  else if !validOptCount 2 8 b.sceneCount then
    .error { message := "Invalid sceneCount", field := some "sceneCount" }
  else if !(1 ≤ b.projectName.length && b.projectName.length ≤ 120) then
    .error { message := "Invalid projectName", field := some "projectName" }
  else if !(match b.referenceAssetIds with
            | none => true
            | some ids => ids.length ≤ 24 && ids.all (fun i => 1 ≤ i)) then
    .error { message := "Invalid referenceAssetIds", field := some "referenceAssetIds" }
  else if !validOptEnum sizeEnum b.size then
    .error { message := "Invalid enum value", field := some "size" }
  else
    .ok { script := b.script, sceneCount := b.sceneCount.getD 4,
          projectName := b.projectName, characterNotes := b.characterNotes,
          environmentNotes := b.environmentNotes, natureNotes := b.natureNotes,
          referenceAssetIds := b.referenceAssetIds, stylePreset := b.stylePreset,
          size := b.size }

/-- The single-image handler (`routes.ts` lines 384-459). The provider call
result is a parameter: `.error` models a thrown exception (caught by the
handler's catch-all), `.ok` a returned payload. -/
def singleImageHandler (body : GenerateImageBody) (provider : Except String String) :
    HttpResponse × List WriteOp :=
  match validateGenerateImage body with
  | .error e => ({ status := 400, message := e.message }, [])
  | .ok input =>
    let writes0 := [WriteOp.createJob input.prompt,
                    WriteOp.updateJob { status := some "running", progress := some 10 }]
    match provider with
    | .error _ => ({ status := 500, message := "Internal error" }, writes0)
    | .ok b64 =>
      if b64.isEmpty then
        ({ status := 500, message := "No image data returned" },
         writes0 ++ [WriteOp.updateJob { status := some "failed", progress := some 100,
                                         error := some "No image data returned" }])
      else
        let dims := sizeToDims (input.size.getD "1024x1024")
        ({ status := 201, message := "" },
         writes0 ++ [WriteOp.createAsset input.prompt,
                     WriteOp.createRendition dims.1 dims.2,
                     WriteOp.updateJob { status := some "succeeded", progress := some 100 }])

/-- The descriptor plan of `generateProjectAssetSet` (lines 249-308): up to
`count` extracted descriptors per category, falling back to the truncated
script prefix (`input.script.slice(0, 120)`) when extraction yields nothing;
categories processed in the fixed order character, environment, nature. -/
def projectPackPlan (script : String) (characterCount environmentCount natureCount : Nat) :
    List (ProjectAssetCategory × String) :=
  let eff : List String → List String := fun d =>
    if d.isEmpty then [String.mk (script.data.take 120)] else d
  ((eff (extractCharacterCandidates script characterCount)).map
      (fun d => (ProjectAssetCategory.character, d))) ++
  ((eff (extractEnvironmentCandidates script environmentCount)).map
      (fun d => (ProjectAssetCategory.environment, d))) ++
  ((eff (extractNatureCandidates script natureCount)).map
      (fun d => (ProjectAssetCategory.nature, d)))

/-- The per-descriptor loop of `createCategoryAssets`: one provider call, one
asset and one rendition per descriptor; a thrown provider error aborts the
whole run. Returns the writes performed and whether the loop completed. -/
def runPack (provider : Nat → Except String String) (dims : Nat × Nat) :
    List (ProjectAssetCategory × String) → Nat → List WriteOp × Bool
  | [], _ => ([], true)
  | (_, d) :: rest, k =>
    match provider k with
    | .error _ => ([], false)
    | .ok _ =>
      let r := runPack provider dims rest (k + 1)
      (WriteOp.createAsset d :: WriteOp.createRendition dims.1 dims.2 :: r.1, r.2)

/-- The project-pack handler (lines 462-498). -/
def projectPackHandler (body : ProjectPackBody) (provider : Nat → Except String String) :
    HttpResponse × List WriteOp :=
  match validateProjectPack body with
  | .error e => ({ status := 400, message := e.message }, [])
  | .ok input =>
    let dims := sizeToDims (input.size.getD "1024x1024")
    let plan := projectPackPlan input.script input.characterCount
      input.environmentCount input.natureCount
    let r := runPack provider dims plan 0
    ({ status := if r.2 then 201 else 500,
       message := if r.2 then "" else "Internal error" },
     WriteOp.createJob (input.projectName ++ ": project pack generation") ::
     WriteOp.updateJob { status := some "running", progress := some 10 } ::
     r.1 ++ (if r.2 then
       [WriteOp.updateJob { status := some "succeeded", progress := some 100 }] else []))

/-- The per-scene loop of the storyboard handler (lines 542-582): one
provider call, asset, rendition and proportional progress update per scene;
a thrown provider error or empty payload aborts the run. -/
def runStoryboard (provider : Nat → Except String String) (dims : Nat × Nat) (n : Nat) :
    List ParsedScene → Nat → List WriteOp × Bool
  | [], _ => ([], true)
  | scene :: rest, i =>
    match provider i with
    | .error _ => ([], false)
    | .ok b64 =>
      if b64.isEmpty then ([], false)
      else
        let r := runStoryboard provider dims n rest (i + 1)
        (WriteOp.createAsset scene.summary ::
         WriteOp.createRendition dims.1 dims.2 ::
         WriteOp.updateJob { progress := some (jsRound100 (i + 1) n) } :: r.1, r.2)

/-- The storyboard handler (lines 501-598). `refCtx` is the reference-context
block computed by `buildReferenceContext` (a read, not a write). -/
def storyboardHandler (body : StoryboardBody) (refCtx : String)
    (provider : Nat → Except String String) : HttpResponse × List WriteOp :=
  match validateStoryboard body with
  | .error e => ({ status := 400, message := e.message }, [])
  | .ok input =>
    let context : StoryboardContext :=
      { projectName := input.projectName, characterNotes := input.characterNotes,
        environmentNotes := input.environmentNotes, natureNotes := input.natureNotes,
        referenceContext := some refCtx }
    let scenes := normalizeScriptScenes input.script input.sceneCount context
    let dims := sizeToDims (input.size.getD "1024x1024")
    let r := runStoryboard provider dims scenes.length scenes 0
    ({ status := if r.2 then 201 else 500,
       message := if r.2 then "" else "Internal error" },
     WriteOp.createJob (input.projectName ++ ": storyboard generation (" ++
       toString scenes.length ++ " scenes)") ::
     WriteOp.updateJob { status := some "running", progress := some 5 } ::
     r.1 ++ (if r.2 then
       [WriteOp.updateJob { status := some "succeeded", progress := some 100 }] else []))

/-! ## Formal statements of the claims under test -/

/-- "The concatenation of the chunks (ignoring the whitespace added when
joining) contains every input paragraph exactly once and in the original
paragraph order": the chunk texts arise from a partition of the paragraph
list into contiguous non-empty groups, each chunk being its group joined
with single spaces and trimmed. -/
def coversExactlyOnce (blocks summaries : List (List Char)) : Prop :=
  ∃ groups : List (List (List Char)),
    groups.flatten = blocks ∧ (∀ g ∈ groups, g ≠ []) ∧ summaries = groups.map groupText

/-- The summaries of the scenes the segmenter returns, as character lists. -/
def sceneSummaries (script : String) (targetCount : Nat) (context : StoryboardContext) :
    List (List Char) :=
  (normalizeScriptScenes script targetCount context).map (fun s => s.summary.data)

/-- Claim C1 as stated: for ≥ 2 paragraphs and requestedCount ≥ 2 the
segmenter returns exactly requestedCount non-empty chunks covering every
paragraph exactly once in order. -/
def c1Statement : Prop :=
  ∀ (script : String) (requestedCount : Nat) (context : StoryboardContext),
    2 ≤ requestedCount → 2 ≤ (scriptBlocks script).length →
    (normalizeScriptScenes script requestedCount context).length = requestedCount ∧
    (∀ s ∈ normalizeScriptScenes script requestedCount context, s.summary ≠ "") ∧
    coversExactlyOnce (scriptBlocks script) (sceneSummaries script requestedCount context)

/-- Claim C2 as stated: for every script accepted by request validation
(length ≥ 20) and every validated scene count, the segmenter returns between
2 and requestedCount scenes, and every proportional group is non-empty. -/
def c2Statement : Prop :=
  ∀ (script : String) (requestedCount : Nat) (context : StoryboardContext),
    2 ≤ requestedCount → requestedCount ≤ 8 → 20 ≤ script.length →
    (2 ≤ (normalizeScriptScenes script requestedCount context).length ∧
     (normalizeScriptScenes script requestedCount context).length ≤ requestedCount ∧
     ∀ g ∈ sceneGroups (rawScenes script) (max 2 requestedCount), g ≠ [])

/-- The progress values observed on the job row over a run never decrease. -/
def progressMonotone (trace : List JobUpdate) : Prop :=
  List.Chain' (· ≤ ·) ((jobStates trace).map (fun s => s.progress))

/-- Every observed job state with progress 100 has a terminal status. -/
def only100AtTerminal (trace : List JobUpdate) : Prop :=
  ∀ s ∈ jobStates trace, s.progress = 100 →
    s.status = "succeeded" ∨ s.status = "failed"

/-- Claim C3 as stated: in each of the three pipelines, progress is
monotonically non-decreasing and reaches 100 only at a terminal status. -/
def c3Statement : Prop :=
  (∀ (body : GenerateImageBody) (provider : Except String String),
    progressMonotone (jobUpdatesOf (singleImageHandler body provider).2) ∧
    only100AtTerminal (jobUpdatesOf (singleImageHandler body provider).2)) ∧
  (∀ (body : ProjectPackBody) (provider : Nat → Except String String),
    progressMonotone (jobUpdatesOf (projectPackHandler body provider).2) ∧
    only100AtTerminal (jobUpdatesOf (projectPackHandler body provider).2)) ∧
  (∀ (body : StoryboardBody) (refCtx : String) (provider : Nat → Except String String),
    progressMonotone (jobUpdatesOf (storyboardHandler body refCtx provider).2) ∧
    only100AtTerminal (jobUpdatesOf (storyboardHandler body refCtx provider).2))

/-- The job state at the end of a run. -/
def finalJobState (trace : List JobUpdate) : JobState :=
  (jobStates trace).getLastD initialJob

/-- Claim C4 as stated: with Backend A returning an empty image list, a valid
single-image request ends with the job `failed` carrying
"No image data returned" and an HTTP 500 response with that same message. -/
def c4Statement : Prop :=
  ∀ (body : GenerateImageBody) (input : GenerateImageBody),
    validateGenerateImage body = .ok input →
    (singleImageHandler body (generateWithOpenAI [])).1 =
      { status := 500, message := "No image data returned" } ∧
    (finalJobState (jobUpdatesOf (singleImageHandler body (generateWithOpenAI [])).2)).status
      = "failed" ∧
    (finalJobState (jobUpdatesOf (singleImageHandler body (generateWithOpenAI [])).2)).error
      = some "No image data returned"

/-- Claim C5 as stated: a 1/1/1 project-pack request on a script with no
title-case names and no environment/nature keyword matches creates exactly
three assets, one per category, each with the fallback truncated script
prefix as its descriptor. -/
def c5Statement : Prop :=
  ∀ script : String,
    titleCaseTokens script = [] →
    (pickTopLines script 40).filter (lineMatchesKeyword environmentKeywords) = [] →
    (pickTopLines script 40).filter (lineMatchesKeyword natureKeywords) = [] →
    projectPackPlan script 1 1 1 =
      [ (ProjectAssetCategory.character, String.mk (script.data.take 120)),
        (ProjectAssetCategory.environment, String.mk (script.data.take 120)),
        (ProjectAssetCategory.nature, String.mk (script.data.take 120)) ]

/-- Claim C6 as stated: with both a truthy API key and truthy AWS access-key
credentials configured, the outgoing Bedrock request carries the bearer
header and an `AWS4-HMAC-SHA256` signature header simultaneously; with only
the API key configured, the nested-HMAC signature derivation is bypassed
(the result does not depend on the HMAC function). -/
def c6Statement : Prop :=
  (∀ (hash : String → String) (hmac : String → String → String) (env : BedrockEnv)
      (body canonicalPath region service amzDate k : String),
    env.apiKey = some k → k ≠ "" →
    jsTruthy env.accessKeyId = true → jsTruthy env.secretAccessKey = true →
    ∃ auth, buildBedrockAuthHeaders hash hmac env body canonicalPath region service amzDate
        = .ok auth ∧
      ("Authorization", "Bearer " ++ k) ∈ bedrockRequestHeaders auth ∧
      ∃ v, ("authorization", v) ∈ bedrockRequestHeaders auth ∧
        "AWS4-HMAC-SHA256".isPrefixOf v) ∧
  (∀ (hash : String → String) (hmac hmac2 : String → String → String) (env : BedrockEnv)
      (body canonicalPath region service amzDate k : String),
    env.apiKey = some k → k ≠ "" →
    env.accessKeyId = none → env.secretAccessKey = none →
    buildBedrockAuthHeaders hash hmac env body canonicalPath region service amzDate =
      buildBedrockAuthHeaders hash hmac2 env body canonicalPath region service amzDate)

/-! ## Helper lemmas -/

theorem trimChars_eq_rdropWhile (l : List Char) :
    trimChars l = List.rdropWhile isWs (l.dropWhile isWs) := rfl

theorem mem_dropWhile_of_not (p : Char → Bool) {c : Char} (hc : p c = false) :
    ∀ {l : List Char}, c ∈ l → c ∈ l.dropWhile p
  | a :: t, h => by
    by_cases ha : p a
    · rw [List.dropWhile_cons_of_pos ha]
      rcases List.mem_cons.mp h with h | h
      · subst h; simp [ha] at hc
      · exact mem_dropWhile_of_not p hc h
    · rwa [List.dropWhile_cons_of_neg ha]

theorem trimChars_ne_nil_of_mem {l : List Char} {c : Char}
    (h : c ∈ l) (hc : isWs c = false) : trimChars l ≠ [] := by
  intro hnil
  rw [trimChars_eq_rdropWhile, List.rdropWhile_eq_nil_iff] at hnil
  have := hnil c (mem_dropWhile_of_not isWs hc h)
  simp [hc] at this

theorem exists_ink_of_trimChars_ne_nil {l : List Char} (h : trimChars l ≠ []) :
    ∃ c ∈ trimChars l, isWs c = false := by
  refine ⟨(trimChars l).getLast h, List.getLast_mem h, ?_⟩
  have := List.rdropWhile_last_not (p := isWs) (l := l.dropWhile isWs)
    (by rw [← trimChars_eq_rdropWhile]; exact h)
  simpa [← trimChars_eq_rdropWhile] using this

theorem mem_joinSep {c : Char} (sep : List Char) :
    ∀ {L : List (List Char)} {x : List Char}, x ∈ L → c ∈ x → c ∈ joinSep sep L
  | [x], _, hx, hc => by
    rcases List.mem_singleton.mp hx with rfl
    simpa [joinSep] using hc
  | x :: y :: xs, _, hx, hc => by
    rcases List.mem_cons.mp hx with rfl | hx
    · simp [joinSep, List.mem_append, hc]
    · have := mem_joinSep (L := y :: xs) sep hx hc
      simp [joinSep, List.mem_append, this]

theorem length_le_length_flatten {G : List (List (List Char))}
    (h : ∀ g ∈ G, g ≠ []) : G.length ≤ G.flatten.length := by
  induction G with
  | nil => simp
  | cons g rest ih =>
    have hg : g ≠ [] := h g (List.mem_cons_self g rest)
    have hg1 : 1 ≤ g.length := List.length_pos.mpr hg
    have := ih (fun x hx => h x (List.mem_cons_of_mem g hx))
    simp only [List.flatten_cons, List.length_cons, List.length_append]
    omega

theorem not_mem_seen_of_mem_dedupFirstAux [DecidableEq α] {a : α} :
    ∀ {l seen : List α}, a ∈ dedupFirstAux seen l → a ∉ seen
  | b :: rest, seen, h => by
    by_cases hb : b ∈ seen
    · rw [dedupFirstAux, if_pos hb] at h
      exact not_mem_seen_of_mem_dedupFirstAux h
    · rw [dedupFirstAux, if_neg hb] at h
      rcases List.mem_cons.mp h with rfl | h
      · exact hb
      · have := not_mem_seen_of_mem_dedupFirstAux h
        intro ha
        exact this (List.mem_cons_of_mem b ha)

theorem nodup_dedupFirstAux [DecidableEq α] :
    ∀ (l seen : List α), (dedupFirstAux seen l).Nodup
  | [], _ => List.nodup_nil
  | b :: rest, seen => by
    by_cases hb : b ∈ seen
    · rw [dedupFirstAux, if_pos hb]
      exact nodup_dedupFirstAux rest seen
    · rw [dedupFirstAux, if_neg hb]
      refine List.nodup_cons.mpr ⟨?_, nodup_dedupFirstAux rest (b :: seen)⟩
      intro hmem
      exact not_mem_seen_of_mem_dedupFirstAux hmem (List.mem_cons_self b seen)

theorem nodup_dedupFirst [DecidableEq α] (l : List α) : (dedupFirst l).Nodup :=
  nodup_dedupFirstAux l []

/-- Keyword-candidate extraction: every result is a trimmed line of the
script, at most `count` results, and keyword-matching lines all precede
non-matching lines. -/
theorem extractKeywordCandidates_spec (keywords : List String) (script : String)
    (count : Nat) :
    (∀ l ∈ extractKeywordCandidates keywords script count,
        l ∈ (splitNewlineRuns script).map (fun cl => String.mk (trimChars cl))) ∧
    (extractKeywordCandidates keywords script count).length ≤ count ∧
    List.Pairwise
      (fun a b => lineMatchesKeyword keywords b = true →
        lineMatchesKeyword keywords a = true)
      (extractKeywordCandidates keywords script count) := by
  have hline : ∀ l ∈ pickTopLines script 40,
      l ∈ (splitNewlineRuns script).map (fun cl => String.mk (trimChars cl)) := by
    intro l hl
    unfold pickTopLines at hl
    exact List.mem_filter.mp (List.mem_of_mem_take hl) |>.1
  refine ⟨?_, ?_, ?_⟩
  · intro l hl
    unfold extractKeywordCandidates at hl
    rcases List.mem_append.mp (List.mem_of_mem_take hl) with h | h
    · exact hline l (List.mem_filter.mp h).1
    · exact hline l (List.mem_filter.mp h).1
  · exact List.length_take_le _ _
  · unfold extractKeywordCandidates
    apply List.Pairwise.sublist (List.take_sublist _ _)
    apply List.pairwise_append.mpr
    refine ⟨?_, ?_, ?_⟩
    · apply List.pairwise_of_forall_mem_list
      intro a ha _ _ _
      exact (List.mem_filter.mp ha).2
    · apply List.pairwise_of_forall_mem_list
      intro a _ b hb hkb
      exfalso
      have hnb := (List.mem_filter.mp hb).2
      have hbl := (List.mem_filter.mp hb).1
      have : b ∈ (pickTopLines script 40).filter (lineMatchesKeyword keywords) :=
        List.mem_filter.mpr ⟨hbl, hkb⟩
      have hcb : ((pickTopLines script 40).filter
          (lineMatchesKeyword keywords)).contains b = true :=
        List.contains_iff_exists_mem_beq.mpr ⟨b, this, by simp⟩
      rw [hcb] at hnb
      simp at hnb
    · intro a ha _ _ _
      exact (List.mem_filter.mp ha).2

/-- C7: the three extraction functions are total by construction; character
extraction is deduplicated (no name twice) and bounded by `count`;
environment/nature extraction returns only trimmed lines of the script, at
most `count` of them, with every keyword-matching line before every
non-matching line. -/
theorem extractors_bounded_dedup_ordered (script : String) (count : Nat) :
    (extractCharacterCandidates script count).length ≤ count ∧
    (extractCharacterCandidates script count).Nodup ∧
    (∀ l ∈ extractEnvironmentCandidates script count,
        l ∈ (splitNewlineRuns script).map (fun cl => String.mk (trimChars cl))) ∧
    (extractEnvironmentCandidates script count).length ≤ count ∧
    List.Pairwise
      (fun a b => lineMatchesKeyword environmentKeywords b = true →
        lineMatchesKeyword environmentKeywords a = true)
      (extractEnvironmentCandidates script count) ∧
    (∀ l ∈ extractNatureCandidates script count,
        l ∈ (splitNewlineRuns script).map (fun cl => String.mk (trimChars cl))) ∧
    (extractNatureCandidates script count).length ≤ count ∧
    List.Pairwise
      (fun a b => lineMatchesKeyword natureKeywords b = true →
        lineMatchesKeyword natureKeywords a = true)
      (extractNatureCandidates script count) := by
  obtain ⟨he1, he2, he3⟩ := extractKeywordCandidates_spec environmentKeywords script count
  obtain ⟨hn1, hn2, hn3⟩ := extractKeywordCandidates_spec natureKeywords script count
  refine ⟨List.length_take_le _ _, ?_, he1, he2, he3, hn1, hn2, hn3⟩
  exact (nodup_dedupFirst _).sublist (List.take_sublist _ _)

/-- C10: every scene descriptor of one run carries the per-run
character-consistency directive — the trimmed caller notes when truthy,
otherwise the character bible of the whole script — so all scenes share the
identical string. -/
theorem characterConsistency_shared (script : String) (targetCount : Nat)
    (context : StoryboardContext) :
    (∀ s ∈ normalizeScriptScenes script targetCount context,
      s.characterConsistency =
        (match context.characterNotes with
         | some notes =>
           if (jsTrim notes).length ≠ 0 then jsTrim notes
           else extractCharacterBible script
         | none => extractCharacterBible script)) ∧
    (∀ s1 ∈ normalizeScriptScenes script targetCount context,
     ∀ s2 ∈ normalizeScriptScenes script targetCount context,
      s1.characterConsistency = s2.characterConsistency) := by
  have key : ∀ s ∈ normalizeScriptScenes script targetCount context,
      s.characterConsistency = runCharacterConsistency context script := by
    intro s hs
    unfold normalizeScriptScenes at hs
    simp only [List.mem_map] at hs
    obtain ⟨p, _, rfl⟩ := hs
    rfl
  refine ⟨fun s hs => (key s hs).trans rfl, fun s1 h1 s2 h2 => ?_⟩
  rw [key s1 h1, key s2 h2]

/-- Witness for C7: on a concrete script, a concrete environment candidate is
indeed a trimmed line of the script, obtained from the theorem. -/
theorem extractors_bounded_dedup_ordered_witness :
    "Rin walked through the forest rain today" ∈
      extractEnvironmentCandidates
        "Rin walked through the forest rain today\nTaro followed Rin closely behind her" 2 ∧
    "Rin walked through the forest rain today" ∈
      (splitNewlineRuns
        "Rin walked through the forest rain today\nTaro followed Rin closely behind her").map
        (fun cl => String.mk (trimChars cl)) ∧
    (extractCharacterCandidates
      "Rin walked through the forest rain today\nTaro followed Rin closely behind her" 2).Nodup :=
  ⟨by decide,
   (extractors_bounded_dedup_ordered
      "Rin walked through the forest rain today\nTaro followed Rin closely behind her" 2).2.2.1
     "Rin walked through the forest rain today" (by decide),
   (extractors_bounded_dedup_ordered
      "Rin walked through the forest rain today\nTaro followed Rin closely behind her" 2).2.1⟩

/-- Witness for C10: on a concrete two-paragraph run with caller notes, the
first scene carries the trimmed notes as its consistency directive. -/
theorem characterConsistency_shared_witness :
    ({ index := 1, title := "Alpha beta gamma one aa", summary := "Alpha beta gamma one aa.",
       characterConsistency := "Keep Rin consistent.",
       composition := "Use cinematic wide framing with a clear foreground-middle-background depth stack.",
       nature := "Natural environmental storytelling with weather, vegetation, and terrain textures matching the scene tone." } : ParsedScene)
      ∈ normalizeScriptScenes "Alpha beta gamma one aa.\n\nBeta gamma delta two bb." 2
          { projectName := "Proj", characterNotes := some "Keep Rin consistent." } ∧
    ({ index := 1, title := "Alpha beta gamma one aa", summary := "Alpha beta gamma one aa.",
       characterConsistency := "Keep Rin consistent.",
       composition := "Use cinematic wide framing with a clear foreground-middle-background depth stack.",
       nature := "Natural environmental storytelling with weather, vegetation, and terrain textures matching the scene tone." } : ParsedScene).characterConsistency
      = "Keep Rin consistent." :=
  ⟨by decide,
   (((characterConsistency_shared "Alpha beta gamma one aa.\n\nBeta gamma delta two bb." 2
      { projectName := "Proj", characterNotes := some "Keep Rin consistent." }).1
     _ (by decide)).trans (by decide))⟩

theorem jsJoinNl_append_singleton (xs : List String) (c : String) (h : xs ≠ []) :
    jsJoinNl (xs ++ [c]) = jsJoinNl xs ++ "\n" ++ c := by
  induction xs with
  | nil => exact absurd rfl h
  | cons x rest ih =>
    cases rest with
    | nil => rfl
    | cons y ys =>
      have hys := ih (by simp)
      calc jsJoinNl (x :: y :: ys ++ [c])
          = x ++ "\n" ++ jsJoinNl (y :: ys ++ [c]) := rfl
        _ = x ++ "\n" ++ (jsJoinNl (y :: ys) ++ "\n" ++ c) := by rw [hys]
        _ = x ++ "\n" ++ jsJoinNl (y :: ys) ++ "\n" ++ c := by
             simp [String.append_assoc]

/-- C8: the assembled storyboard prompt is exactly the newline-join of the
fixed ordered line list the specification describes; the style line falls
back to the fixed default phrase when no preset is supplied; and the prompt
always ends, after a newline, with the one fixed continuity instruction. -/
theorem storyboardPrompt_structure (scene : ParsedScene) (context : StoryboardContext)
    (stylePreset : Option String) :
    buildStoryboardPrompt scene context stylePreset =
      jsJoinNl (storyboardPromptSpecLines scene context stylePreset) ∧
    (storyboardPromptSpecLines scene context stylePreset).getLast? = some continuityLine ∧
    (stylePreset = none →
      storyboardStyleLine stylePreset = "Visual style: cinematic anime storyboard concept art.") ∧
    ∃ rest, buildStoryboardPrompt scene context stylePreset = rest ++ "\n" ++ continuityLine := by
  refine ⟨rfl, rfl, fun h => by rw [h]; rfl, ?_⟩
  refine ⟨jsJoinNl
    [ "Project: " ++ context.projectName,
      "Storyboard scene " ++ toString scene.index ++ ": " ++ scene.title,
      "Scene summary: " ++ scene.summary,
      "Character consistency: " ++ scene.characterConsistency,
      "Composition guidance: " ++ scene.composition,
      "Nature and environment guidance: " ++ scene.nature,
      context.referenceContext.getD "",
      storyboardStyleLine stylePreset ], ?_⟩
  rw [buildStoryboardPrompt, show
    [ "Project: " ++ context.projectName,
      "Storyboard scene " ++ toString scene.index ++ ": " ++ scene.title,
      "Scene summary: " ++ scene.summary,
      "Character consistency: " ++ scene.characterConsistency,
      "Composition guidance: " ++ scene.composition,
      "Nature and environment guidance: " ++ scene.nature,
      context.referenceContext.getD "",
      storyboardStyleLine stylePreset,
      continuityLine ] =
    [ "Project: " ++ context.projectName,
      "Storyboard scene " ++ toString scene.index ++ ": " ++ scene.title,
      "Scene summary: " ++ scene.summary,
      "Character consistency: " ++ scene.characterConsistency,
      "Composition guidance: " ++ scene.composition,
      "Nature and environment guidance: " ++ scene.nature,
      context.referenceContext.getD "",
      storyboardStyleLine stylePreset ] ++ [continuityLine] from rfl]
  exact jsJoinNl_append_singleton _ _ (by simp)

/-- Witness for C8: on a concrete scene with no style preset, the prompt ends
with the continuity line and the style line is the default phrase. -/
theorem storyboardPrompt_structure_witness :
    ((none : Option String) = none →
      storyboardStyleLine none = "Visual style: cinematic anime storyboard concept art.") ∧
    ∃ rest,
      buildStoryboardPrompt
        { index := 1, title := "T", summary := "S", characterConsistency := "C",
          composition := "K", nature := "N" }
        { projectName := "P" } none = rest ++ "\n" ++ continuityLine :=
  ⟨(storyboardPrompt_structure
      { index := 1, title := "T", summary := "S", characterConsistency := "C",
        composition := "K", nature := "N" } { projectName := "P" } none).2.2.1,
   (storyboardPrompt_structure
      { index := 1, title := "T", summary := "S", characterConsistency := "C",
        composition := "K", nature := "N" } { projectName := "P" } none).2.2.2⟩

/-- C9: on any of the three generation endpoints, a body that fails zod
validation yields a 400 response carrying the structured message and produces
no persistence write at all — no job, asset or rendition row. -/
theorem validation_error_no_writes
    (bImg : GenerateImageBody) (p1 : Except String String)
    (bPack : ProjectPackBody) (p2 : Nat → Except String String)
    (bSb : StoryboardBody) (refCtx : String) (p3 : Nat → Except String String)
    (e1 e2 e3 : ValidationMessage) :
    (validateGenerateImage bImg = .error e1 →
      singleImageHandler bImg p1 = ({ status := 400, message := e1.message }, [])) ∧
    (validateProjectPack bPack = .error e2 →
      projectPackHandler bPack p2 = ({ status := 400, message := e2.message }, [])) ∧
    (validateStoryboard bSb = .error e3 →
      storyboardHandler bSb refCtx p3 = ({ status := 400, message := e3.message }, [])) := by
  refine ⟨fun h => ?_, fun h => ?_, fun h => ?_⟩
  · simp [singleImageHandler, h]
  · simp [projectPackHandler, h]
  · simp [storyboardHandler, h]

/-- Witness for C9: three concrete invalid bodies (empty prompt, 5-character
script, scene count 1) each get a 400 response and an empty write list. -/
theorem validation_error_no_writes_witness :
    singleImageHandler { prompt := "" } (.ok "img") =
      ({ status := 400, message := "String must contain at least 1 character(s)" }, []) ∧
    projectPackHandler { projectName := "P", script := "short" } (fun _ => .ok "img") =
      ({ status := 400, message := "String must contain at least 20 character(s)" }, []) ∧
    storyboardHandler
      { script := "this script is long enough ok!", sceneCount := some 1, projectName := "P" }
      "" (fun _ => .ok "img") =
      ({ status := 400, message := "Invalid sceneCount" }, []) :=
  ⟨(validation_error_no_writes { prompt := "" } (.ok "img")
      { projectName := "P", script := "short" } (fun _ => .ok "img")
      { script := "this script is long enough ok!", sceneCount := some 1, projectName := "P" }
      "" (fun _ => .ok "img")
      { message := "String must contain at least 1 character(s)", field := some "prompt" }
      { message := "String must contain at least 20 character(s)", field := some "script" }
      { message := "Invalid sceneCount", field := some "sceneCount" }).1 rfl,
   (validation_error_no_writes { prompt := "" } (.ok "img")
      { projectName := "P", script := "short" } (fun _ => .ok "img")
      { script := "this script is long enough ok!", sceneCount := some 1, projectName := "P" }
      "" (fun _ => .ok "img")
      { message := "String must contain at least 1 character(s)", field := some "prompt" }
      { message := "String must contain at least 20 character(s)", field := some "script" }
      { message := "Invalid sceneCount", field := some "sceneCount" }).2.1 rfl,
   (validation_error_no_writes { prompt := "" } (.ok "img")
      { projectName := "P", script := "short" } (fun _ => .ok "img")
      { script := "this script is long enough ok!", sceneCount := some 1, projectName := "P" }
      "" (fun _ => .ok "img")
      { message := "String must contain at least 1 character(s)", field := some "prompt" }
      { message := "String must contain at least 20 character(s)", field := some "script" }
      { message := "Invalid sceneCount", field := some "sceneCount" }).2.2 rfl⟩

/-- Counterexample for C4: with Backend A returning an empty image list, a
valid single-image request does not end as the claim states — `decide`
computes the actual handler outcome, which is a 500 "Internal error" with the
job left running. -/
theorem openai_empty_list_counterexample : ¬ c4Statement := by
  intro h
  have hv : validateGenerateImage { prompt := "a red cube" } =
      .ok { prompt := "a red cube" } := rfl
  have hc := h { prompt := "a red cube" } { prompt := "a red cube" } hv
  exact absurd hc.1 (by decide)

/-- C4 (amended): with Backend A returning an empty image list, the provider
wrapper throws "OpenAI returned no image data"; the single-image handler's
catch-all turns this into a 500 response with message "Internal error", and
the job is left in status `running` at progress 10 with no error recorded —
the handler's `failed`/"No image data returned" branch is unreachable because
the wrapper throws instead of returning an empty payload. -/
theorem openai_empty_list_internal_error (body input : GenerateImageBody)
    (h : validateGenerateImage body = .ok input) :
    generateWithOpenAI [] = .error "OpenAI returned no image data" ∧
    (singleImageHandler body (generateWithOpenAI [])).1 =
      { status := 500, message := "Internal error" } ∧
    finalJobState (jobUpdatesOf (singleImageHandler body (generateWithOpenAI [])).2) =
      { status := "running", progress := 10, error := none } := by
  refine ⟨rfl, ?_, ?_⟩
  · simp [singleImageHandler, h, generateWithOpenAI]
  · simp [singleImageHandler, h, generateWithOpenAI, jobUpdatesOf, finalJobState,
      jobStates, applyUpdate, initialJob]

/-- Witness for C4 (amended): the concrete valid body "a red cube". -/
theorem openai_empty_list_internal_error_witness :
    validateGenerateImage { prompt := "a red cube" } = .ok { prompt := "a red cube" } ∧
    (singleImageHandler { prompt := "a red cube" } (generateWithOpenAI [])).1 =
      { status := 500, message := "Internal error" } ∧
    finalJobState
      (jobUpdatesOf (singleImageHandler { prompt := "a red cube" } (generateWithOpenAI [])).2) =
      { status := "running", progress := 10, error := none } :=
  ⟨rfl,
   (openai_empty_list_internal_error { prompt := "a red cube" } { prompt := "a red cube" }
     rfl).2.1,
   (openai_empty_list_internal_error { prompt := "a red cube" } { prompt := "a red cube" }
     rfl).2.2⟩

/-- Counterexample for C6: with both a pre-issued API key and AWS access-key
credentials configured, the outgoing request does *not* carry an
`AWS4-HMAC-SHA256` signature header — the API-key branch returns before any
signature is derived, so the two authorization paths are never sent
simultaneously. -/
theorem bedrock_dual_credentials_counterexample : ¬ c6Statement := by
  intro h
  obtain ⟨auth, hok, _, v, hv, _⟩ :=
    h.1 (fun s => s) (fun k s => k ++ s)
      { apiKey := some "KEY", accessKeyId := some "AKID",
        secretAccessKey := some "SECRET", sessionToken := none }
      "b" "/p" "r" "bedrock" "20240101T000000Z" "KEY" rfl (by decide) (by decide) (by decide)
  have h0 : buildBedrockAuthHeaders (fun s => s) (fun k s => k ++ s)
      { apiKey := some "KEY", accessKeyId := some "AKID",
        secretAccessKey := some "SECRET", sessionToken := none }
      "b" "/p" "r" "bedrock" "20240101T000000Z" =
      .ok { host := "bedrock-runtime.r.amazonaws.com", amzDate := "20240101T000000Z",
            payloadHash := "b", sessionToken := none, authorization := none,
            apiKey := some "KEY" } := rfl
  rw [h0] at hok
  cases hok
  have hnone : ∀ p ∈ bedrockRequestHeaders
      { host := "bedrock-runtime.r.amazonaws.com", amzDate := "20240101T000000Z",
        payloadHash := "b", sessionToken := none, authorization := none,
        apiKey := some "KEY" }, p.1 ≠ "authorization" := by decide
  exact hnone _ hv rfl

/-- C6 (amended): whenever the API key is configured (truthy), the API-key
branch is taken regardless of any AWS access-key credentials: the auth record
carries no signature, it is independent of the HMAC function (the nested-HMAC
derivation is bypassed entirely), and the request headers carry the bearer
header but no lowercase `authorization` signature header. -/
theorem bedrock_apiKey_bypasses_signature
    (hash : String → String) (hmac hmac2 : String → String → String) (env : BedrockEnv)
    (body canonicalPath region service amzDate k : String)
    (hk : env.apiKey = some k) (hk2 : k ≠ "") :
    buildBedrockAuthHeaders hash hmac env body canonicalPath region service amzDate =
      .ok { host := "bedrock-runtime." ++ region ++ ".amazonaws.com", amzDate := amzDate,
            payloadHash := hash body, sessionToken := none, authorization := none,
            apiKey := some k } ∧
    buildBedrockAuthHeaders hash hmac env body canonicalPath region service amzDate =
      buildBedrockAuthHeaders hash hmac2 env body canonicalPath region service amzDate ∧
    ∀ auth,
      buildBedrockAuthHeaders hash hmac env body canonicalPath region service amzDate
        = .ok auth →
      ("Authorization", "Bearer " ++ k) ∈ bedrockRequestHeaders auth ∧
      ∀ v, ("authorization", v) ∉ bedrockRequestHeaders auth := by
  have hemp : k.isEmpty = false := by
    cases hb : k.isEmpty
    · rfl
    · exact absurd ((String.isEmpty_iff k).mp hb) hk2
  have hcond : jsTruthy env.apiKey = true := by
    rw [hk]
    simp [jsTruthy, hemp]
  have hmain : ∀ hm : String → String → String,
      buildBedrockAuthHeaders hash hm env body canonicalPath region service amzDate =
      .ok { host := "bedrock-runtime." ++ region ++ ".amazonaws.com", amzDate := amzDate,
            payloadHash := hash body, sessionToken := none, authorization := none,
            apiKey := some k } := by
    intro hm
    rw [buildBedrockAuthHeaders, if_pos hcond, hk]
  refine ⟨hmain hmac, (hmain hmac).trans (hmain hmac2).symm, ?_⟩
  intro auth hok
  rw [hmain hmac] at hok
  cases hok
  constructor
  · simp [bedrockRequestHeaders, jsTemplateOpt]
  · intro v hv
    simp [bedrockRequestHeaders, jsTemplateOpt] at hv

/-- Witness for C6 (amended): a concrete environment with both credential
kinds configured still bypasses the signature and sends only the bearer
header. -/
theorem bedrock_apiKey_bypasses_signature_witness :
    buildBedrockAuthHeaders (fun s => s) (fun key s => key ++ s)
      { apiKey := some "KEY", accessKeyId := some "AKID",
        secretAccessKey := some "SECRET", sessionToken := none }
      "b" "/p" "r" "bedrock" "20240101T000000Z" =
      .ok { host := "bedrock-runtime.r.amazonaws.com", amzDate := "20240101T000000Z",
            payloadHash := "b", sessionToken := none, authorization := none,
            apiKey := some "KEY" } ∧
    ("Authorization", "Bearer " ++ "KEY") ∈ bedrockRequestHeaders
      { host := "bedrock-runtime.r.amazonaws.com", amzDate := "20240101T000000Z",
        payloadHash := "b", sessionToken := none, authorization := none,
        apiKey := some "KEY" } :=
  ⟨(bedrock_apiKey_bypasses_signature (fun s => s) (fun key s => key ++ s)
      (fun key s => key ++ s)
      { apiKey := some "KEY", accessKeyId := some "AKID",
        secretAccessKey := some "SECRET", sessionToken := none }
      "b" "/p" "r" "bedrock" "20240101T000000Z" "KEY" rfl (by decide)).1,
   ((bedrock_apiKey_bypasses_signature (fun s => s) (fun key s => key ++ s)
      (fun key s => key ++ s)
      { apiKey := some "KEY", accessKeyId := some "AKID",
        secretAccessKey := some "SECRET", sessionToken := none }
      "b" "/p" "r" "bedrock" "20240101T000000Z" "KEY" rfl (by decide)).2.2 _ rfl).1⟩

/-! ## Segmenter lemmas -/

theorem ink_of_mem_map_trim {u : List Char} {L : List (List Char)}
    (hmem : u ∈ L.map trimChars) (hne : u ≠ []) : ∃ c ∈ u, isWs c = false := by
  obtain ⟨x, _, rfl⟩ := List.mem_map.mp hmem
  exact exists_ink_of_trimChars_ne_nil hne

theorem scriptBlocks_ink (script : String) :
    ∀ b ∈ scriptBlocks script, ∃ c ∈ b, isWs c = false := by
  intro b hb
  unfold scriptBlocks at hb
  have h := List.mem_filter.mp hb
  exact ink_of_mem_map_trim h.1 (by simpa [List.isEmpty_iff] using h.2)

theorem rawScenes_ink (script : String) :
    ∀ u ∈ rawScenes script, ∃ c ∈ u, isWs c = false := by
  intro u hu
  simp only [rawScenes] at hu
  split at hu
  · exact scriptBlocks_ink script u hu
  · have h := List.mem_filter.mp hu
    refine ink_of_mem_map_trim h.1 ?_
    intro hnil
    have := h.2
    rw [hnil] at this
    simp at this

theorem boundary_mono (n e i : Nat) : i * n / e ≤ (i + 1) * n / e :=
  Nat.div_le_div_right (Nat.mul_le_mul_right n (Nat.le_succ i))

theorem boundary_start_lt {n e i : Nat} (hn : 1 ≤ n) (hi : i < e) :
    i * n / e < n := by
  have he : 0 < e := Nat.zero_lt_of_lt hi
  rw [Nat.div_lt_iff_lt_mul he]
  calc i * n < e * n := (Nat.mul_lt_mul_right hn).mpr hi
    _ = n * e := Nat.mul_comm e n

theorem boundary_start_succ_le {n e i : Nat} (he : 0 < e) (hen : e ≤ n) :
    i * n / e + 1 ≤ (i + 1) * n / e := by
  have h1 : i * n + e ≤ (i + 1) * n := by
    have : (i + 1) * n = i * n + n := by ring
    omega
  have h2 : (i * n + e) / e ≤ ((i + 1) * n) / e := Nat.div_le_div_right h1
  rwa [Nat.add_div_right _ he] at h2

theorem sceneGroup_eq_of_le {raw : List (List Char)} {e : Nat} (he : 0 < e)
    (hen : e ≤ raw.length) (i : Nat) :
    sceneGroup raw e i =
      (raw.take ((i + 1) * raw.length / e)).drop (i * raw.length / e) := by
  unfold sceneGroup jsSliceList
  rw [Nat.max_eq_right (boundary_start_succ_le he hen)]

theorem sceneGroup_ne_nil {raw : List (List Char)} {e i : Nat}
    (hn : 1 ≤ raw.length) (hi : i < e) : sceneGroup raw e i ≠ [] := by
  intro hnil
  have hs : i * raw.length / e < raw.length := boundary_start_lt hn hi
  have hlen := congrArg List.length hnil
  simp only [sceneGroup, jsSliceList, List.length_drop, List.length_take,
    List.length_nil] at hlen
  have h1 : i * raw.length / e + 1 ≤
      min (max (i * raw.length / e + 1) ((i + 1) * raw.length / e)) raw.length :=
    le_min (le_max_left _ _) hs
  omega

theorem mem_raw_of_mem_sceneGroup {raw : List (List Char)} {e i : Nat}
    {u : List Char} (h : u ∈ sceneGroup raw e i) : u ∈ raw :=
  List.take_subset _ _ (List.drop_subset _ _ h)

theorem groupText_ne_nil {g : List (List Char)} (hg : g ≠ [])
    (hink : ∀ u ∈ g, ∃ c ∈ u, isWs c = false) : groupText g ≠ [] := by
  obtain ⟨u, hu⟩ := List.exists_mem_of_ne_nil g hg
  obtain ⟨c, hc, hcw⟩ := hink u hu
  exact trimChars_ne_nil_of_mem (mem_joinSep [' '] hu hc) hcw

theorem sceneChunks_eq {raw : List (List Char)} (tc : Nat) (hraw : raw ≠ [])
    (hink : ∀ u ∈ raw, ∃ c ∈ u, isWs c = false) :
    sceneChunks raw tc = (sceneGroups raw (max 2 tc)).map groupText := by
  unfold sceneChunks
  apply List.filter_eq_self.mpr
  intro t ht
  obtain ⟨g, hgmem, rfl⟩ := List.mem_map.mp ht
  obtain ⟨i, hirange, rfl⟩ := List.mem_map.mp hgmem
  have hi := List.mem_range.mp hirange
  have hgne := sceneGroup_ne_nil (List.length_pos.mpr hraw) hi
  have hne := groupText_ne_nil hgne
    (fun u hu => hink u (mem_raw_of_mem_sceneGroup hu))
  simp [List.isEmpty_iff, hne]

theorem sceneChunks_length {raw : List (List Char)} (tc : Nat) (hraw : raw ≠ [])
    (hink : ∀ u ∈ raw, ∃ c ∈ u, isWs c = false) :
    (sceneChunks raw tc).length = max 2 tc := by
  rw [sceneChunks_eq tc hraw hink]
  simp [sceneGroups]

theorem take_append_take_drop (l : List α) {m M : Nat} (h : m ≤ M) :
    l.take m ++ (l.take M).drop m = l.take M := by
  conv_rhs => rw [← List.take_append_drop m (l.take M)]
  rw [List.take_take, Nat.min_eq_left h]

theorem flatten_boundaries (l : List α) (b : Nat → Nat) (h0 : b 0 = 0)
    (mono : ∀ i, b i ≤ b (i + 1)) :
    ∀ k, ((List.range k).map (fun i => (l.take (b (i + 1))).drop (b i))).flatten
      = l.take (b k)
  | 0 => by simp [h0]
  | k + 1 => by
    rw [List.range_succ, List.map_append, List.flatten_append,
      flatten_boundaries l b h0 mono k]
    simp only [List.map_cons, List.map_nil, List.flatten_cons, List.flatten_nil,
      List.append_nil]
    exact take_append_take_drop l (mono k)

theorem sceneSummaries_eq (script : String) (tc : Nat) (ctx : StoryboardContext) :
    sceneSummaries script tc ctx = (sceneChunks (rawScenes script) tc).take tc := by
  unfold sceneSummaries normalizeScriptScenes
  simp only [List.map_map]
  have hfun : ((fun s : ParsedScene => s.summary.data) ∘
      (fun p : Nat × List Char =>
        buildParsedScene ctx (runCharacterConsistency ctx script) p.1 p.2)) =
      Prod.snd := funext fun p => rfl
  rw [hfun]
  simp only [List.enum]
  exact List.enumFrom_map_snd 0 _

theorem normalize_length (script : String) (tc : Nat) (ctx : StoryboardContext) :
    (normalizeScriptScenes script tc ctx).length =
      min tc (sceneChunks (rawScenes script) tc).length := by
  have h := congrArg List.length (sceneSummaries_eq script tc ctx)
  simpa [sceneSummaries, List.length_take] using h

theorem normalize_summary_ne_empty (script : String) (tc : Nat)
    (ctx : StoryboardContext) :
    ∀ s ∈ normalizeScriptScenes script tc ctx, s.summary ≠ "" := by
  intro s hs hempty
  have hmem : s.summary.data ∈ sceneSummaries script tc ctx :=
    List.mem_map.mpr ⟨s, hs, rfl⟩
  rw [sceneSummaries_eq script tc ctx] at hmem
  have hchunk : s.summary.data ∈ sceneChunks (rawScenes script) tc :=
    List.take_subset _ _ hmem
  unfold sceneChunks at hchunk
  have h2 := (List.mem_filter.mp hchunk).2
  rw [hempty] at h2
  simp at h2

/-- Counterexample for C1: on a two-paragraph script with requested count 3,
the segmenter returns three chunks built from overlapping proportional
groups, so some paragraph appears twice — three non-empty groups cannot
partition a two-element paragraph list. -/
theorem segmenter_duplication_counterexample : ¬ c1Statement := by
  intro h
  obtain ⟨hlen, -, groups, hflat, hgne, hmap⟩ :=
    h "First paragraph of the script.\n\nSecond paragraph here." 3
      { projectName := "P" } (by norm_num) (by decide)
  have hslen : (sceneSummaries "First paragraph of the script.\n\nSecond paragraph here."
      3 { projectName := "P" }).length = 3 := by
    unfold sceneSummaries
    rw [List.length_map, hlen]
  rw [hmap, List.length_map] at hslen
  have h3 : 3 ≤ groups.flatten.length := hslen ▸ length_le_length_flatten hgne
  rw [hflat] at h3
  have hb : (scriptBlocks
      "First paragraph of the script.\n\nSecond paragraph here.").length = 2 := by decide
  omega

/-- C1 (amended): when the script has at least `requestedCount` paragraphs
(and `requestedCount ≥ 2`), the segmenter returns exactly `requestedCount`
non-empty chunks whose groups partition the paragraph list — every paragraph
exactly once, in order. When the paragraph count is smaller than
`requestedCount` the proportional groups overlap and paragraphs repeat. -/
theorem segmenter_partition (script : String) (requestedCount : Nat)
    (context : StoryboardContext) (h2 : 2 ≤ requestedCount)
    (hrc : requestedCount ≤ (scriptBlocks script).length) :
    (normalizeScriptScenes script requestedCount context).length = requestedCount ∧
    (∀ s ∈ normalizeScriptScenes script requestedCount context, s.summary ≠ "") ∧
    coversExactlyOnce (scriptBlocks script)
      (sceneSummaries script requestedCount context) := by
  have hb2 : 2 ≤ (scriptBlocks script).length := le_trans h2 hrc
  have hraweq : rawScenes script = scriptBlocks script := by
    simp only [rawScenes]
    rw [if_pos hb2]
  have hrawne : rawScenes script ≠ [] := by
    rw [hraweq]
    intro hnil
    rw [hnil] at hb2
    simp at hb2
  have hink : ∀ u ∈ rawScenes script, ∃ c ∈ u, isWs c = false := rawScenes_ink script
  have hmax : max 2 requestedCount = requestedCount := Nat.max_eq_right h2
  have he : 0 < requestedCount := by omega
  have hclen : (sceneChunks (rawScenes script) requestedCount).length = requestedCount := by
    rw [sceneChunks_length requestedCount hrawne hink, hmax]
  refine ⟨?_, normalize_summary_ne_empty script requestedCount context, ?_⟩
  · rw [normalize_length, hclen, Nat.min_self]
  · refine ⟨sceneGroups (rawScenes script) requestedCount, ?_, ?_, ?_⟩
    · have hen : requestedCount ≤ (rawScenes script).length := by rw [hraweq]; exact hrc
      have hmapeq : sceneGroups (rawScenes script) requestedCount =
          (List.range requestedCount).map
            (fun i => ((rawScenes script).take
              ((i + 1) * (rawScenes script).length / requestedCount)).drop
              (i * (rawScenes script).length / requestedCount)) := by
        unfold sceneGroups
        apply List.map_congr_left
        intro i _
        exact sceneGroup_eq_of_le he hen i
      rw [hmapeq, flatten_boundaries (rawScenes script)
        (fun i => i * (rawScenes script).length / requestedCount) (by simp)
        (fun i => boundary_mono _ _ i)]
      rw [Nat.mul_div_cancel_left _ he, List.take_length, hraweq]
    · intro g hg
      obtain ⟨i, hi, rfl⟩ := List.mem_map.mp hg
      exact sceneGroup_ne_nil (List.length_pos.mpr hrawne) (List.mem_range.mp hi)
    · rw [sceneSummaries_eq, sceneChunks_eq requestedCount hrawne hink, hmax]
      have hlen2 : ((sceneGroups (rawScenes script) requestedCount).map groupText).length
          = requestedCount := by simp [sceneGroups]
      exact List.take_of_length_le (le_of_eq hlen2)

/-- Witness for C1 (amended): the concrete two-paragraph script with
requested count 2. -/
theorem segmenter_partition_witness :
    2 ≤ (scriptBlocks "First paragraph of the script.\n\nSecond paragraph here.").length ∧
    (normalizeScriptScenes "First paragraph of the script.\n\nSecond paragraph here." 2
      { projectName := "P" }).length = 2 ∧
    coversExactlyOnce
      (scriptBlocks "First paragraph of the script.\n\nSecond paragraph here.")
      (sceneSummaries "First paragraph of the script.\n\nSecond paragraph here." 2
        { projectName := "P" }) :=
  ⟨by decide,
   (segmenter_partition "First paragraph of the script.\n\nSecond paragraph here." 2
     { projectName := "P" } (by norm_num) (by decide)).1,
   (segmenter_partition "First paragraph of the script.\n\nSecond paragraph here." 2
     { projectName := "P" } (by norm_num) (by decide)).2.2⟩

/-- Counterexample for C2: a 20-character, punctuation-free, single-line
script passes request validation but yields zero raw units and therefore
zero scenes — not the claimed minimum of two. -/
theorem segmenter_empty_scenes_counterexample : ¬ c2Statement := by
  intro h
  obtain ⟨h2le, -, -⟩ :=
    h "abcdefghijklmnopqrst" 4 { projectName := "P" } (by norm_num) (by norm_num)
      (by decide)
  have hz : (normalizeScriptScenes "abcdefghijklmnopqrst" 4
      { projectName := "P" }).length = 0 := by decide
  omega

/-- C2 (amended): provided the script yields at least one raw unit (a
non-blank paragraph, or a sentence fragment longer than 20 characters —
which a minimal validated 20-character script need not), the segmenter
returns between 2 and `requestedCount` scenes and every proportional group
is non-empty, even when there are fewer raw units than groups. -/
theorem segmenter_bounds (script : String) (requestedCount : Nat)
    (context : StoryboardContext) (h2 : 2 ≤ requestedCount)
    (hraw : rawScenes script ≠ []) :
    2 ≤ (normalizeScriptScenes script requestedCount context).length ∧
    (normalizeScriptScenes script requestedCount context).length ≤ requestedCount ∧
    ∀ g ∈ sceneGroups (rawScenes script) (max 2 requestedCount), g ≠ [] := by
  have hink := rawScenes_ink script
  have hclen := sceneChunks_length requestedCount hraw hink
  have hmax : max 2 requestedCount = requestedCount := Nat.max_eq_right h2
  have hlen : (normalizeScriptScenes script requestedCount context).length
      = requestedCount := by
    rw [normalize_length, hclen, hmax, Nat.min_self]
  refine ⟨by omega, by omega, ?_⟩
  intro g hg
  obtain ⟨i, hi, rfl⟩ := List.mem_map.mp hg
  exact sceneGroup_ne_nil (List.length_pos.mpr hraw) (List.mem_range.mp hi)

/-- Witness for C2 (amended): a two-paragraph script with requested count 3
(fewer raw units than groups) still yields between 2 and 3 scenes. -/
theorem segmenter_bounds_witness :
    rawScenes "First paragraph of the script.\n\nSecond paragraph here." ≠ [] ∧
    2 ≤ (normalizeScriptScenes "First paragraph of the script.\n\nSecond paragraph here."
      3 { projectName := "P" }).length ∧
    (normalizeScriptScenes "First paragraph of the script.\n\nSecond paragraph here."
      3 { projectName := "P" }).length ≤ 3 :=
  ⟨by decide,
   (segmenter_bounds "First paragraph of the script.\n\nSecond paragraph here." 3
     { projectName := "P" } (by norm_num) (by decide)).1,
   (segmenter_bounds "First paragraph of the script.\n\nSecond paragraph here." 3
     { projectName := "P" } (by norm_num) (by decide)).2.1⟩

/-- Counterexample for C5: on a keyword-free, name-free script that has a
line longer than 20 characters, the environment and nature descriptors are
that first substantial line — not the truncated script prefix the claim
requires. -/
theorem projectPack_fallback_counterexample : ¬ c5Statement := by
  intro h
  have hplan := h "a quiet meadow under pale skies\nand gentle hills far away"
    (by decide) (by decide) (by decide)
  exact absurd hplan (by decide)

/-- With no keyword-matching lines, keyword extraction degenerates to the
first `count` substantial lines. -/
theorem extractKeywordCandidates_no_matches {keywords : List String} {script : String}
    (count : Nat)
    (h : (pickTopLines script 40).filter (lineMatchesKeyword keywords) = []) :
    extractKeywordCandidates keywords script count = (pickTopLines script 40).take count := by
  simp only [extractKeywordCandidates]
  rw [h]
  have hfb : (pickTopLines script 40).filter
      (fun line => !(([] : List String).contains line)) = pickTopLines script 40 :=
    List.filter_eq_self.mpr (fun a _ => rfl)
  rw [hfb]
  rfl

/-- The project-pack loop with an always-succeeding provider completes and
creates exactly one asset per planned descriptor. -/
theorem runPack_all_ok (provider : Nat → Except String String) (dims : Nat × Nat)
    (hp : ∀ j, ∃ b, provider j = .ok b) :
    ∀ (items : List (ProjectAssetCategory × String)) (k : Nat),
      (runPack provider dims items k).2 = true ∧
      ((runPack provider dims items k).1.countP
        (fun w => match w with | WriteOp.createAsset _ => true | _ => false))
        = items.length
  | [], _ => by simp [runPack]
  | (cat, d) :: rest, k => by
    obtain ⟨b, hb⟩ := hp k
    have ih := runPack_all_ok provider dims hp rest (k + 1)
    simp [runPack, hb, List.countP_cons, ih.1, ih.2]

/-- C5 (amended): a 1/1/1 project-pack request on a script with no title-case
names and no keyword-matching lines still creates exactly three assets, one
per category; the character descriptor is the fallback truncated script
prefix, but the environment and nature descriptors are the first substantial
line of the script whenever one exists — the fallback prefix is used for them
only when no line is longer than 20 characters. -/
theorem projectPack_three_assets (script : String)
    (hchar : titleCaseTokens script = [])
    (henv : (pickTopLines script 40).filter (lineMatchesKeyword environmentKeywords) = [])
    (hnat : (pickTopLines script 40).filter (lineMatchesKeyword natureKeywords) = []) :
    (projectPackPlan script 1 1 1).map Prod.fst =
      [ProjectAssetCategory.character, ProjectAssetCategory.environment,
       ProjectAssetCategory.nature] ∧
    (pickTopLines script 40 = [] →
      projectPackPlan script 1 1 1 =
        [ (ProjectAssetCategory.character, String.mk (script.data.take 120)),
          (ProjectAssetCategory.environment, String.mk (script.data.take 120)),
          (ProjectAssetCategory.nature, String.mk (script.data.take 120)) ]) ∧
    (∀ l rest, pickTopLines script 40 = l :: rest →
      projectPackPlan script 1 1 1 =
        [ (ProjectAssetCategory.character, String.mk (script.data.take 120)),
          (ProjectAssetCategory.environment, l),
          (ProjectAssetCategory.nature, l) ]) ∧
    (∀ (provider : Nat → Except String String) (dims : Nat × Nat),
      (∀ j, ∃ b, provider j = .ok b) →
      ((runPack provider dims (projectPackPlan script 1 1 1) 0).1.countP
        (fun w => match w with | WriteOp.createAsset _ => true | _ => false)) = 3) := by
  have hcc : extractCharacterCandidates script 1 = [] := by
    unfold extractCharacterCandidates
    rw [hchar]
    rfl
  have hce := extractKeywordCandidates_no_matches 1 henv
  have hcn := extractKeywordCandidates_no_matches 1 hnat
  have hshape : projectPackPlan script 1 1 1 =
      [(ProjectAssetCategory.character, String.mk (script.data.take 120))] ++
      ((if ((pickTopLines script 40).take 1).isEmpty
          then [String.mk (script.data.take 120)] else (pickTopLines script 40).take 1).map
        (fun d => (ProjectAssetCategory.environment, d))) ++
      ((if ((pickTopLines script 40).take 1).isEmpty
          then [String.mk (script.data.take 120)] else (pickTopLines script 40).take 1).map
        (fun d => (ProjectAssetCategory.nature, d))) := by
    simp only [projectPackPlan, extractEnvironmentCandidates, extractNatureCandidates]
    rw [hcc, hce, hcn]
    rfl
  have hcases :
      (pickTopLines script 40 = [] →
        projectPackPlan script 1 1 1 =
          [ (ProjectAssetCategory.character, String.mk (script.data.take 120)),
            (ProjectAssetCategory.environment, String.mk (script.data.take 120)),
            (ProjectAssetCategory.nature, String.mk (script.data.take 120)) ]) ∧
      (∀ l rest, pickTopLines script 40 = l :: rest →
        projectPackPlan script 1 1 1 =
          [ (ProjectAssetCategory.character, String.mk (script.data.take 120)),
            (ProjectAssetCategory.environment, l),
            (ProjectAssetCategory.nature, l) ]) := by
    constructor
    · intro hnil
      rw [hshape, hnil]
      rfl
    · intro l rest hcons
      rw [hshape, hcons]
      rfl
  have hmap : (projectPackPlan script 1 1 1).map Prod.fst =
      [ProjectAssetCategory.character, ProjectAssetCategory.environment,
       ProjectAssetCategory.nature] := by
    rcases hq : pickTopLines script 40 with - | ⟨l, rest⟩
    · rw [hcases.1 hq]
      rfl
    · rw [hcases.2 l rest hq]
      rfl
  refine ⟨hmap, hcases.1, hcases.2, ?_⟩
  intro provider dims hp
  have h3 : (projectPackPlan script 1 1 1).length = 3 := by
    have := congrArg List.length hmap
    simpa using this
  rw [(runPack_all_ok provider dims hp (projectPackPlan script 1 1 1) 0).2, h3]

/-- Witness for C5 (amended): the concrete keyword-free script whose first
substantial line becomes the environment/nature descriptor. -/
theorem projectPack_three_assets_witness :
    titleCaseTokens "a quiet meadow under pale skies\nand gentle hills far away" = [] ∧
    (projectPackPlan "a quiet meadow under pale skies\nand gentle hills far away" 1 1 1).map
      Prod.fst =
      [ProjectAssetCategory.character, ProjectAssetCategory.environment,
       ProjectAssetCategory.nature] ∧
    projectPackPlan "a quiet meadow under pale skies\nand gentle hills far away" 1 1 1 =
      [ (ProjectAssetCategory.character,
         String.mk (("a quiet meadow under pale skies\nand gentle hills far away" :
           String).data.take 120)),
        (ProjectAssetCategory.environment, "a quiet meadow under pale skies"),
        (ProjectAssetCategory.nature, "a quiet meadow under pale skies") ] :=
  ⟨by decide,
   (projectPack_three_assets "a quiet meadow under pale skies\nand gentle hills far away"
     (by decide) (by decide) (by decide)).1,
   (projectPack_three_assets "a quiet meadow under pale skies\nand gentle hills far away"
     (by decide) (by decide) (by decide)).2.2.1
     "a quiet meadow under pale skies" ["and gentle hills far away"] (by decide)⟩

/-! ## Job-progress lemmas -/

theorem jsRound100_mono {k k2 n : Nat} (h : k ≤ k2) :
    jsRound100 k n ≤ jsRound100 k2 n :=
  Nat.div_le_div_right (by omega)

theorem jsRound100_le_100 {k n : Nat} (h : k ≤ n) : jsRound100 k n ≤ 100 := by
  rcases Nat.eq_zero_or_pos n with rfl | hn
  · interval_cases k
    simp [jsRound100]
  · have h1 : jsRound100 k n ≤ (201 * n) / (2 * n) :=
      Nat.div_le_div_right (by omega)
    have h2 : (201 * n) / (2 * n) = 100 := by
      rw [show 201 * n = n + 2 * n * 100 by ring,
        Nat.add_mul_div_left _ _ (by omega), Nat.div_eq_of_lt (by omega)]
    omega

theorem jsRound100_lt_100 {k n : Nat} (hk : k < n) (hn : n < 200) :
    jsRound100 k n < 100 := by
  have h2n : 0 < 2 * n := by omega
  rw [jsRound100, Nat.div_lt_iff_lt_mul h2n]
  omega

theorem jsRound100_self {n : Nat} (hn : 1 ≤ n) : jsRound100 n n = 100 := by
  rw [jsRound100, show 200 * n + n = n + 2 * n * 100 by ring,
    Nat.add_mul_div_left _ _ (by omega), Nat.div_eq_of_lt (by omega)]

theorem five_le_jsRound100 {j n : Nat} (hn1 : 1 ≤ n) (hn : n ≤ 22) (hj : 1 ≤ j) :
    5 ≤ jsRound100 j n := by
  have h1 : 5 ≤ jsRound100 1 n := by
    rw [jsRound100, Nat.le_div_iff_mul_le (by omega : 0 < 2 * n)]
    omega
  exact le_trans h1 (jsRound100_mono hj)

/-- Over updates that all carry a progress value, the observed progress
sequence is the initial progress followed by the written values. -/
theorem scanl_progress_all_some :
    ∀ {trace : List JobUpdate}, (∀ u ∈ trace, u.progress.isSome) →
    ∀ s : JobState,
      ((trace.scanl applyUpdate s).map (fun st => st.progress)) =
        s.progress :: trace.filterMap (fun u => u.progress)
  | [], _, s => by simp
  | u :: t, h, s => by
    obtain ⟨p, hp⟩ := Option.isSome_iff_exists.mp (h u (List.mem_cons_self u t))
    have ih := scanl_progress_all_some
      (fun v hv => h v (List.mem_cons_of_mem u hv)) (applyUpdate s u)
    simp only [List.scanl_cons, List.singleton_append, List.map_cons, ih,
      List.filterMap_cons, hp]
    have : (applyUpdate s u).progress = p := by simp [applyUpdate, hp]
    rw [this]

theorem finalJobState_eq_foldl_aux :
    ∀ (trace : List JobUpdate) (s : JobState),
      (trace.scanl applyUpdate s).getLastD initialJob = trace.foldl applyUpdate s
  | [], s => rfl
  | u :: t, s => by
    rw [List.scanl_cons, List.singleton_append, List.getLastD_cons,
      List.foldl_cons]
    have h := finalJobState_eq_foldl_aux t (applyUpdate s u)
    rcases hne : t.scanl applyUpdate (applyUpdate s u) with - | ⟨a, l⟩
    · have hlen := List.length_scanl (f := applyUpdate) (applyUpdate s u) t
      rw [hne] at hlen
      simp at hlen
    · rw [hne] at h
      simpa using h

theorem finalJobState_eq_foldl (trace : List JobUpdate) :
    finalJobState trace = trace.foldl applyUpdate initialJob :=
  finalJobState_eq_foldl_aux trace initialJob

theorem foldl_progress_all_some :
    ∀ {trace : List JobUpdate}, (∀ u ∈ trace, u.progress.isSome) →
    ∀ s : JobState,
      (trace.foldl applyUpdate s).progress =
        (trace.filterMap (fun u => u.progress)).getLastD s.progress
  | [], _, s => rfl
  | u :: t, h, s => by
    obtain ⟨p, hp⟩ := Option.isSome_iff_exists.mp (h u (List.mem_cons_self u t))
    have ih := foldl_progress_all_some
      (fun v hv => h v (List.mem_cons_of_mem u hv)) (applyUpdate s u)
    simp only [List.foldl_cons, List.filterMap_cons, hp, List.getLastD_cons, ih]
    have : (applyUpdate s u).progress = p := by simp [applyUpdate, hp]
    rw [this]

theorem getLastD_lt_of_forall {l : List Nat} {d : Nat} (hd : d < 100)
    (h : ∀ x ∈ l, x < 100) : l.getLastD d < 100 := by
  rcases hne : l with - | ⟨a, t⟩
  · exact hd
  · rw [← hne]
    have hlne : l ≠ [] := by rw [hne]; simp
    rw [List.getLastD_eq_getLast? , List.getLast?_eq_getLast l hlne]
    simp only [Option.getD_some]
    exact h _ (List.getLast_mem hlne)

/-- The project-pack loop never writes a job update. -/
theorem runPack_no_updates (provider : Nat → Except String String) (dims : Nat × Nat) :
    ∀ (items : List (ProjectAssetCategory × String)) (k : Nat),
      jobUpdatesOf (runPack provider dims items k).1 = []
  | [], _ => rfl
  | (cat, d) :: rest, k => by
    cases hp : provider k with
    | error e => simp [runPack, hp, jobUpdatesOf]
    | ok b =>
      have ih := runPack_no_updates provider dims rest (k + 1)
      simpa [runPack, hp, jobUpdatesOf] using ih

/-- Shape of the storyboard loop's job updates: an initial segment of the
proportional progress updates, complete exactly when the loop succeeds. -/
theorem runStoryboard_updates (provider : Nat → Except String String)
    (dims : Nat × Nat) (n : Nat) :
    ∀ (scenes : List ParsedScene) (i : Nat),
      ∃ k, k ≤ scenes.length ∧
        jobUpdatesOf (runStoryboard provider dims n scenes i).1 =
          (List.range k).map
            (fun j => { progress := some (jsRound100 (i + j + 1) n) }) ∧
        ((runStoryboard provider dims n scenes i).2 = true → k = scenes.length) ∧
        ((runStoryboard provider dims n scenes i).2 = false → k < scenes.length)
  | [], i => ⟨0, by simp [runStoryboard, jobUpdatesOf]⟩
  | scene :: rest, i => by
    cases hp : provider i with
    | error e =>
      exact ⟨0, by simp, by simp [runStoryboard, hp, jobUpdatesOf],
        by simp [runStoryboard, hp], fun _ => by simp⟩
    | ok b =>
      by_cases hb : b.isEmpty
      · exact ⟨0, by simp, by simp [runStoryboard, hp, hb, jobUpdatesOf],
          by simp [runStoryboard, hp, hb], fun _ => by simp⟩
      · obtain ⟨k, hk, heq, himp, himp2⟩ := runStoryboard_updates provider dims n rest (i + 1)
        have hrun : runStoryboard provider dims n (scene :: rest) i =
            (WriteOp.createAsset scene.summary :: WriteOp.createRendition dims.1 dims.2 ::
             WriteOp.updateJob { progress := some (jsRound100 (i + 1) n) } ::
             (runStoryboard provider dims n rest (i + 1)).1,
             (runStoryboard provider dims n rest (i + 1)).2) := by
          simp [runStoryboard, hp, hb]
        refine ⟨k + 1, by simpa using hk, ?_, ?_, ?_⟩
        · rw [hrun]
          simp only [jobUpdatesOf, List.filterMap_cons] at heq ⊢
          rw [heq, List.range_succ_eq_map, List.map_cons, List.map_map]
          congr 1
          apply List.map_congr_left
          intro j _
          simp only [Function.comp_apply]
          have harith : i + 1 + j + 1 = i + (j + 1) + 1 := by omega
          rw [harith]
        · intro hok
          rw [hrun] at hok
          simp [himp hok]
        · intro hok
          rw [hrun] at hok
          have := himp2 hok
          simp only [List.length_cons]
          omega

theorem validateStoryboard_sceneCount {b : StoryboardBody} {input : StoryboardInput}
    (h : validateStoryboard b = .ok input) :
    2 ≤ input.sceneCount ∧ input.sceneCount ≤ 8 := by
  simp only [validateStoryboard] at h
  split at h
  · exact Except.noConfusion h
  split at h
  · exact Except.noConfusion h
  split at h
  · exact Except.noConfusion h
  split at h
  · exact Except.noConfusion h
  split at h
  · exact Except.noConfusion h
  have hsc : validOptCount 2 8 b.sceneCount = true := by
    have hneg := ‹¬(!validOptCount 2 8 b.sceneCount) = true›
    simpa using hneg
  have hval := Except.ok.inj h
  have hfield : input.sceneCount = b.sceneCount.getD 4 := by
    rw [← hval]
  rcases hm : b.sceneCount with - | m
  · rw [hfield, hm]
    exact ⟨by norm_num, by norm_num⟩
  · rw [hm] at hsc
    simp only [validOptCount, Bool.and_eq_true, decide_eq_true_eq] at hsc
    rw [hfield, hm]
    exact ⟨hsc.1, hsc.2⟩

theorem singleImage_trace_props (body : GenerateImageBody)
    (provider : Except String String) :
    progressMonotone (jobUpdatesOf (singleImageHandler body provider).2) ∧
    only100AtTerminal (jobUpdatesOf (singleImageHandler body provider).2) := by
  cases hval : validateGenerateImage body with
  | error e =>
    have h1 : jobUpdatesOf (singleImageHandler body provider).2 = [] := by
      simp [singleImageHandler, hval, jobUpdatesOf]
    rw [h1]
    exact ⟨by simp [progressMonotone, jobStates, List.scanl, applyUpdate, initialJob],
           by simp [only100AtTerminal, jobStates, List.scanl, applyUpdate, initialJob]⟩
  | ok input =>
    cases provider with
    | error msg =>
      have h1 : jobUpdatesOf (singleImageHandler body (.error msg)).2 =
          [{ status := some "running", progress := some 10 }] := by
        simp [singleImageHandler, hval, jobUpdatesOf]
      rw [h1]
      exact ⟨by simp [progressMonotone, jobStates, List.scanl, applyUpdate, initialJob],
             by simp [only100AtTerminal, jobStates, List.scanl, applyUpdate, initialJob]⟩
    | ok b =>
      by_cases hb : b.isEmpty
      · have h1 : jobUpdatesOf (singleImageHandler body (.ok b)).2 =
            [{ status := some "running", progress := some 10 },
             { status := some "failed", progress := some 100,
               error := some "No image data returned" }] := by
          simp [singleImageHandler, hval, hb, jobUpdatesOf]
        rw [h1]
        exact ⟨by simp [progressMonotone, jobStates, List.scanl, applyUpdate, initialJob],
               by simp [only100AtTerminal, jobStates, List.scanl, applyUpdate, initialJob]⟩
      · have h1 : jobUpdatesOf (singleImageHandler body (.ok b)).2 =
            [{ status := some "running", progress := some 10 },
             { status := some "succeeded", progress := some 100 }] := by
          simp [singleImageHandler, hval, hb, jobUpdatesOf]
        rw [h1]
        exact ⟨by simp [progressMonotone, jobStates, List.scanl, applyUpdate, initialJob],
               by simp [only100AtTerminal, jobStates, List.scanl, applyUpdate, initialJob]⟩

theorem projectPack_trace_props (body : ProjectPackBody)
    (provider : Nat → Except String String) :
    progressMonotone (jobUpdatesOf (projectPackHandler body provider).2) ∧
    only100AtTerminal (jobUpdatesOf (projectPackHandler body provider).2) := by
  cases hval : validateProjectPack body with
  | error e =>
    have h1 : jobUpdatesOf (projectPackHandler body provider).2 = [] := by
      simp [projectPackHandler, hval, jobUpdatesOf]
    rw [h1]
    exact ⟨by simp [progressMonotone, jobStates, List.scanl, applyUpdate, initialJob],
           by simp [only100AtTerminal, jobStates, List.scanl, applyUpdate, initialJob]⟩
  | ok input =>
    have hnp := runPack_no_updates provider (sizeToDims (input.size.getD "1024x1024"))
      (projectPackPlan input.script input.characterCount input.environmentCount
        input.natureCount) 0
    simp only [jobUpdatesOf] at hnp
    by_cases hr : (runPack provider (sizeToDims (input.size.getD "1024x1024"))
        (projectPackPlan input.script input.characterCount input.environmentCount
          input.natureCount) 0).2
    · have h1 : jobUpdatesOf (projectPackHandler body provider).2 =
          [{ status := some "running", progress := some 10 },
           { status := some "succeeded", progress := some 100 }] := by
        simp [projectPackHandler, hval, jobUpdatesOf, hr, List.filterMap_append, hnp]
      rw [h1]
      exact ⟨by simp [progressMonotone, jobStates, List.scanl, applyUpdate, initialJob],
             by simp [only100AtTerminal, jobStates, List.scanl, applyUpdate, initialJob]⟩
    · have h1 : jobUpdatesOf (projectPackHandler body provider).2 =
          [{ status := some "running", progress := some 10 }] := by
        simp [projectPackHandler, hval, jobUpdatesOf, hr, List.filterMap_append, hnp]
      rw [h1]
      exact ⟨by simp [progressMonotone, jobStates, List.scanl, applyUpdate, initialJob],
             by simp [only100AtTerminal, jobStates, List.scanl, applyUpdate, initialJob]⟩

theorem filterMap_some_eq_map (g : α → β) :
    ∀ l : List α, l.filterMap (fun x => some (g x)) = l.map g
  | [] => rfl
  | a :: t => by simp [List.filterMap_cons, filterMap_some_eq_map g t]

/-- Progress properties of any trace of the storyboard shape: the running/5
update, `k` proportional updates, and a terminal update exactly on success. -/
theorem storyboard_shape_props (k n : Nat) (tail : Bool) (hk : k ≤ n) (hn : n ≤ 8)
    (htailT : tail = true → k = n) (htailF : tail = false → k < n) :
    progressMonotone
      (({ status := some "running", progress := some 5 } : JobUpdate) ::
        ((List.range k).map
          (fun j => ({ progress := some (jsRound100 (j + 1) n) } : JobUpdate)) ++
         (if tail then
            [({ status := some "succeeded", progress := some 100 } : JobUpdate)] else []))) ∧
    ((finalJobState
        (({ status := some "running", progress := some 5 } : JobUpdate) ::
          ((List.range k).map
            (fun j => ({ progress := some (jsRound100 (j + 1) n) } : JobUpdate)) ++
           (if tail then
              [({ status := some "succeeded", progress := some 100 } : JobUpdate)] else [])))).progress = 100 →
      (finalJobState
        (({ status := some "running", progress := some 5 } : JobUpdate) ::
          ((List.range k).map
            (fun j => ({ progress := some (jsRound100 (j + 1) n) } : JobUpdate)) ++
           (if tail then
              [({ status := some "succeeded", progress := some 100 } : JobUpdate)] else [])))).status = "succeeded" ∨
      (finalJobState
        (({ status := some "running", progress := some 5 } : JobUpdate) ::
          ((List.range k).map
            (fun j => ({ progress := some (jsRound100 (j + 1) n) } : JobUpdate)) ++
           (if tail then
              [({ status := some "succeeded", progress := some 100 } : JobUpdate)] else [])))).status = "failed") := by
  have hvals : ∀ y ∈ (List.range k).map (fun j => jsRound100 (j + 1) n),
      5 ≤ y ∧ y ≤ 100 ∧ (tail = false → y < 100) := by
    intro y hy
    obtain ⟨j, hj, rfl⟩ := List.mem_map.mp hy
    have hjk : j < k := List.mem_range.mp hj
    refine ⟨five_le_jsRound100 (by omega) (by omega) (by omega),
      jsRound100_le_100 (by omega), fun hf => ?_⟩
    have := htailF hf
    exact jsRound100_lt_100 (by omega) (by omega)
  cases tail with
  | true =>
    constructor
    · -- monotonicity
      have hsome : ∀ u ∈ ({ status := some "running", progress := some 5 } : JobUpdate) ::
          ((List.range k).map
            (fun j => ({ progress := some (jsRound100 (j + 1) n) } : JobUpdate)) ++
           [({ status := some "succeeded", progress := some 100 } : JobUpdate)]),
          u.progress.isSome := by
        intro u hu
        rcases List.mem_cons.mp hu with rfl | hu
        · rfl
        rcases List.mem_append.mp hu with hm | ht
        · obtain ⟨j, -, rfl⟩ := List.mem_map.mp hm
          rfl
        · rcases List.mem_singleton.mp ht with rfl
          rfl
      unfold progressMonotone jobStates
      simp only [if_true]
      rw [scanl_progress_all_some hsome initialJob]
      apply List.Pairwise.chain'
      have hfm : (({ status := some "running", progress := some 5 } : JobUpdate) ::
          ((List.range k).map
            (fun j => ({ progress := some (jsRound100 (j + 1) n) } : JobUpdate)) ++
           [({ status := some "succeeded", progress := some 100 } : JobUpdate)])).filterMap
            (fun u => u.progress) =
          5 :: ((List.range k).map (fun j => jsRound100 (j + 1) n) ++ [100]) := by
        simp [List.filterMap_cons, List.filterMap_append, List.filterMap_map,
          Function.comp_def, filterMap_some_eq_map]
      rw [hfm]
      refine List.pairwise_cons.mpr ⟨fun y _ => Nat.zero_le y, ?_⟩
      refine List.pairwise_cons.mpr ⟨?_, ?_⟩
      · intro y hy
        rcases List.mem_append.mp hy with hm | ht
        · exact (hvals y hm).1
        · rcases List.mem_singleton.mp ht with rfl
          omega
      · refine List.pairwise_append.mpr ⟨?_, ?_, ?_⟩
        · exact (List.sorted_lt_range k).map _
            (fun a b hab => jsRound100_mono (by omega))
        · simp
        · intro a ha b hb
          rcases List.mem_singleton.mp hb with rfl
          exact (hvals a ha).2.1
    · -- final state on a completed run is the terminal succeeded update
      intro _
      left
      rw [finalJobState_eq_foldl]
      simp only [if_true]
      rw [show ({ status := some "running", progress := some 5 } : JobUpdate) ::
          ((List.range k).map
            (fun j => ({ progress := some (jsRound100 (j + 1) n) } : JobUpdate)) ++
           [({ status := some "succeeded", progress := some 100 } : JobUpdate)]) =
          (({ status := some "running", progress := some 5 } : JobUpdate) ::
           (List.range k).map
            (fun j => ({ progress := some (jsRound100 (j + 1) n) } : JobUpdate))) ++
          [({ status := some "succeeded", progress := some 100 } : JobUpdate)] by simp]
      rw [List.foldl_concat]
      simp [applyUpdate]
  | false =>
    have hsome : ∀ u ∈ ({ status := some "running", progress := some 5 } : JobUpdate) ::
        ((List.range k).map
          (fun j => ({ progress := some (jsRound100 (j + 1) n) } : JobUpdate)) ++ []),
        u.progress.isSome := by
      intro u hu
      rcases List.mem_cons.mp hu with rfl | hu
      · rfl
      rcases List.mem_append.mp hu with hm | ht
      · obtain ⟨j, -, rfl⟩ := List.mem_map.mp hm
        rfl
      · simp at ht
    have hfm : (({ status := some "running", progress := some 5 } : JobUpdate) ::
        ((List.range k).map
          (fun j => ({ progress := some (jsRound100 (j + 1) n) } : JobUpdate)) ++ [])).filterMap
          (fun u => u.progress) =
        5 :: (List.range k).map (fun j => jsRound100 (j + 1) n) := by
      simp [List.filterMap_cons, List.filterMap_map, Function.comp_def,
        filterMap_some_eq_map]
    constructor
    · unfold progressMonotone jobStates
      simp only [Bool.false_eq_true, if_false]
      rw [scanl_progress_all_some hsome initialJob, hfm]
      apply List.Pairwise.chain'
      refine List.pairwise_cons.mpr ⟨fun y _ => Nat.zero_le y, ?_⟩
      refine List.pairwise_cons.mpr ⟨fun y hy => (hvals y hy).1, ?_⟩
      exact (List.sorted_lt_range k).map _ (fun a b hab => jsRound100_mono (by omega))
    · intro h100
      exfalso
      rw [finalJobState_eq_foldl] at h100
      simp only [Bool.false_eq_true, if_false] at h100
      rw [foldl_progress_all_some hsome initialJob, hfm] at h100
      rw [List.getLastD_cons] at h100
      have hlt : ((List.range k).map (fun j => jsRound100 (j + 1) n)).getLastD 5 < 100 :=
        getLastD_lt_of_forall (by omega) (fun x hx => (hvals x hx).2.2 rfl)
      omega

/-- The storyboard handler's job updates, for a validated body: the running/5
update, the loop's proportional updates, and the terminal update on success. -/
theorem storyboardHandler_trace (body : StoryboardBody) (refCtx : String)
    (provider : Nat → Except String String) (input : StoryboardInput)
    (hval : validateStoryboard body = .ok input) :
    jobUpdatesOf (storyboardHandler body refCtx provider).2 =
      { status := some "running", progress := some 5 } ::
      (jobUpdatesOf (runStoryboard provider (sizeToDims (input.size.getD "1024x1024"))
          (normalizeScriptScenes input.script input.sceneCount
            { projectName := input.projectName, characterNotes := input.characterNotes,
              environmentNotes := input.environmentNotes, natureNotes := input.natureNotes,
              referenceContext := some refCtx }).length
          (normalizeScriptScenes input.script input.sceneCount
            { projectName := input.projectName, characterNotes := input.characterNotes,
              environmentNotes := input.environmentNotes, natureNotes := input.natureNotes,
              referenceContext := some refCtx }) 0).1 ++
       (if (runStoryboard provider (sizeToDims (input.size.getD "1024x1024"))
          (normalizeScriptScenes input.script input.sceneCount
            { projectName := input.projectName, characterNotes := input.characterNotes,
              environmentNotes := input.environmentNotes, natureNotes := input.natureNotes,
              referenceContext := some refCtx }).length
          (normalizeScriptScenes input.script input.sceneCount
            { projectName := input.projectName, characterNotes := input.characterNotes,
              environmentNotes := input.environmentNotes, natureNotes := input.natureNotes,
              referenceContext := some refCtx }) 0).2 then
          [{ status := some "succeeded", progress := some 100 }] else [])) := by
  simp only [storyboardHandler, hval]
  simp only [jobUpdatesOf, List.filterMap_cons, List.filterMap_append]
  rcases (runStoryboard provider (sizeToDims (input.size.getD "1024x1024"))
      (normalizeScriptScenes input.script input.sceneCount
        { projectName := input.projectName, characterNotes := input.characterNotes,
          environmentNotes := input.environmentNotes, natureNotes := input.natureNotes,
          referenceContext := some refCtx }).length
      (normalizeScriptScenes input.script input.sceneCount
        { projectName := input.projectName, characterNotes := input.characterNotes,
          environmentNotes := input.environmentNotes, natureNotes := input.natureNotes,
          referenceContext := some refCtx }) 0).2 with - | -
  · simp
  · simp

theorem storyboard_trace_props (body : StoryboardBody) (refCtx : String)
    (provider : Nat → Except String String) :
    progressMonotone (jobUpdatesOf (storyboardHandler body refCtx provider).2) ∧
    ((finalJobState (jobUpdatesOf (storyboardHandler body refCtx provider).2)).progress
        = 100 →
      (finalJobState (jobUpdatesOf (storyboardHandler body refCtx provider).2)).status
        = "succeeded" ∨
      (finalJobState (jobUpdatesOf (storyboardHandler body refCtx provider).2)).status
        = "failed") := by
  cases hval : validateStoryboard body with
  | error e =>
    have h1 : jobUpdatesOf (storyboardHandler body refCtx provider).2 = [] := by
      simp [storyboardHandler, hval, jobUpdatesOf]
    rw [h1]
    constructor
    · simp [progressMonotone, jobStates, List.scanl, applyUpdate, initialJob]
    · intro h100
      exfalso
      simp [finalJobState, jobStates, List.scanl, initialJob] at h100
  | ok input =>
    obtain ⟨hsc2, hsc8⟩ := validateStoryboard_sceneCount hval
    rw [storyboardHandler_trace body refCtx provider input hval]
    set scenes := normalizeScriptScenes input.script input.sceneCount
      { projectName := input.projectName, characterNotes := input.characterNotes,
        environmentNotes := input.environmentNotes, natureNotes := input.natureNotes,
        referenceContext := some refCtx } with hscenes
    set dims := sizeToDims (input.size.getD "1024x1024") with hdims
    have hN8 : scenes.length ≤ 8 := by
      rw [hscenes, normalize_length]
      calc min input.sceneCount
            (sceneChunks (rawScenes input.script) input.sceneCount).length
          ≤ input.sceneCount := Nat.min_le_left _ _
        _ ≤ 8 := hsc8
    obtain ⟨k, hk, heq, himpT, himpF⟩ :=
      runStoryboard_updates provider dims scenes.length scenes 0
    have heq2 : jobUpdatesOf (runStoryboard provider dims scenes.length scenes 0).1 =
        (List.range k).map
          (fun j => ({ progress := some (jsRound100 (j + 1) scenes.length) } :
            JobUpdate)) := by
      rw [heq]
      apply List.map_congr_left
      intro j _
      have harith : 0 + j + 1 = j + 1 := by omega
      rw [harith]
    rw [heq2]
    exact storyboard_shape_props k scenes.length
      (runStoryboard provider dims scenes.length scenes 0).2 hk hN8 himpT himpF

/-- Counterexample for C3: in a completing two-scene storyboard run, the
final per-scene update sets progress to 100 while the job status is still
`running` — the state ⟨running, 100⟩ is observed before the terminal update. -/
theorem storyboard_progress_100_while_running : ¬ c3Statement := by
  intro h
  have h3 := (h.2.2
    { script := "Aa bb cc dd.\n\nEe ff gg hh.", sceneCount := some 2, projectName := "P" }
    "" (fun _ => .ok "img")).2
  have hmem : ({ status := "running", progress := 100, error := none } : JobState) ∈
      jobStates (jobUpdatesOf (storyboardHandler
        { script := "Aa bb cc dd.\n\nEe ff gg hh.", sceneCount := some 2, projectName := "P" }
        "" (fun _ => .ok "img")).2) := by
    decide
  rcases h3 _ hmem rfl with hc | hc <;> exact absurd hc (by decide)

/-- C3 (amended): in every flow the job's progress sequence is monotonically
non-decreasing; in single-image and project-pack runs progress is 100 only at
a terminal status; in storyboard runs the last per-scene update transiently
shows progress 100 while the status is still running, and the *final* job
state has progress 100 only with a terminal status. -/
theorem job_progress_properties (bImg : GenerateImageBody) (p1 : Except String String)
    (bPack : ProjectPackBody) (p2 : Nat → Except String String)
    (bSb : StoryboardBody) (refCtx : String) (p3 : Nat → Except String String) :
    (progressMonotone (jobUpdatesOf (singleImageHandler bImg p1).2) ∧
     only100AtTerminal (jobUpdatesOf (singleImageHandler bImg p1).2)) ∧
    (progressMonotone (jobUpdatesOf (projectPackHandler bPack p2).2) ∧
     only100AtTerminal (jobUpdatesOf (projectPackHandler bPack p2).2)) ∧
    (progressMonotone (jobUpdatesOf (storyboardHandler bSb refCtx p3).2) ∧
     ((finalJobState (jobUpdatesOf (storyboardHandler bSb refCtx p3).2)).progress = 100 →
       (finalJobState (jobUpdatesOf (storyboardHandler bSb refCtx p3).2)).status
         = "succeeded" ∨
       (finalJobState (jobUpdatesOf (storyboardHandler bSb refCtx p3).2)).status
         = "failed")) :=
  ⟨singleImage_trace_props bImg p1, projectPack_trace_props bPack p2,
   storyboard_trace_props bSb refCtx p3⟩

/-- Witness for C3 (amended): a concrete completing storyboard run whose
final state has progress 100 — the theorem yields its terminal status. -/
theorem job_progress_properties_witness :
    (finalJobState (jobUpdatesOf (storyboardHandler
      { script := "Aa bb cc dd.\n\nEe ff gg hh.", sceneCount := some 2, projectName := "P" }
      "" (fun _ => .ok "img")).2)).status = "succeeded" ∨
    (finalJobState (jobUpdatesOf (storyboardHandler
      { script := "Aa bb cc dd.\n\nEe ff gg hh.", sceneCount := some 2, projectName := "P" }
      "" (fun _ => .ok "img")).2)).status = "failed" :=
  (job_progress_properties { prompt := "x" } (.ok "img")
    { projectName := "P", script := "aaaaaaaaaaaaaaaaaaaaaaaa" } (fun _ => .ok "img")
    { script := "Aa bb cc dd.\n\nEe ff gg hh.", sceneCount := some 2, projectName := "P" }
    "" (fun _ => .ok "img")).2.2.2
    (by decide)

end AnimeStoryboard
